import Mathlib

/-!
Verification of the OpenSLO editor's validation-and-generation core.

The two functions under study are `validateState` (src/App.tsx, lines
51-112) and `generateYaml` (src/utils/yamlGenerator.ts).  Both are pure
functions over the editor's `SloState` value (src/types.ts), and both are
embedded here shallowly:

* TypeScript strings become `String`; the JavaScript operations the code
  uses (`trim`, the `/^\s*\n/gm` replace, `split('\n').map(...).join('\n')`,
  the k8s-name regex test) are re-implemented below as structurally
  recursive functions over `List Char` so that every proof can evaluate
  them.
* The TypeScript `number` fields that the validator inspects become
  `JsNum`, a rational together with the `NaN` sentinel, so that the
  JavaScript comparison semantics (every comparison with `NaN` is false)
  is represented faithfully; fields the runtime may leave `undefined`
  (`target`, `indicatorRef`, `thresholdMetric.value`, the optional metric
  objects) become `Option`.
* Number-to-string conversion (template interpolation `${n}`) is modelled
  for the terminating decimals the editor produces; non-terminating
  rationals take a fallback branch that no claim exercises, since a
  JavaScript double always prints as a finite decimal.
-/

set_option maxRecDepth 100000

namespace OpenSLO

/-! ## JavaScript numbers -/

/-- A JavaScript number as the validator observes it: either a genuine
(finite) numeric value, modelled as a rational, or the `NaN` sentinel. -/
inductive JsNum where
  | num (q : ℚ)
  | nan
deriving DecidableEq

/-- JavaScript `<`: false whenever either side is `NaN`. -/
def jsLt : JsNum → JsNum → Bool
  | .num a, .num b => a < b
  | _, _ => false

/-- JavaScript `>`: false whenever either side is `NaN`. -/
def jsGt : JsNum → JsNum → Bool
  | .num a, .num b => a > b
  | _, _ => false

/-- JavaScript `<=`: false whenever either side is `NaN`. -/
def jsLe : JsNum → JsNum → Bool
  | .num a, .num b => a ≤ b
  | _, _ => false

/-- JavaScript falsiness of a number: `0` (and `-0`) and `NaN` are falsy. -/
def jsFalsy : JsNum → Bool
  | .num a => a = 0
  | .nan => true

/-- JavaScript `Number.isInteger`. -/
def jsIsInt : JsNum → Bool
  | .num a => a.den = 1
  | .nan => false

/-! ## Character-list string machinery

The generator manipulates its strings with `replace(/^\s*\n/gm, '')` and
`split('\n').map(line => indent + line).join('\n')`.  Both are modelled on
`List Char` with structural recursion. -/

/-- The whitespace characters relevant to `trim`, `\s` and blank-line
detection (the code only ever meets spaces, tabs and newlines). -/
def isWsChar (c : Char) : Bool :=
  c = ' ' || c = '\t' || c = '\r' || c = '\n'

/-- JavaScript `String.prototype.trim`. -/
def jsTrim (s : String) : String :=
  ⟨((s.data.dropWhile isWsChar).reverse.dropWhile isWsChar).reverse⟩

/-- A line is blank when every character is whitespace (so in particular
the empty line is blank); these are exactly the lines the generator's
`replace(/^\s*\n/gm, '')` deletes. -/
def isBlankL (l : List Char) : Bool := l.all isWsChar

/-- Prepend a character to the first line of a split. -/
def consHd (c : Char) : List (List Char) → List (List Char)
  | [] => [[c]]
  | h :: t => (c :: h) :: t

/-- Split a character list at every newline; always returns at least one
(possibly empty) segment, exactly like JavaScript `split('\n')`. -/
def splitCh : List Char → List (List Char)
  | [] => [[]]
  | c :: rest => if c = '\n' then [] :: splitCh rest else consHd c (splitCh rest)

/-- Rejoin segments with newlines, exactly like JavaScript `join('\n')`. -/
def joinL : List (List Char) → List Char
  | [] => []
  | [l] => l
  | l :: ls => l ++ '\n' :: joinL ls

/-- Drop every blank line that is followed by a newline, keeping the final
segment unconditionally: this is the effect of `replace(/^\s*\n/gm, '')`,
whose match must end in a newline, so a blank last line (which has no
trailing newline) survives. -/
def rbL : List (List Char) → List (List Char)
  | [] => []
  | [l] => [l]
  | l :: ls => if isBlankL l then rbL ls else l :: rbL ls

/-- Model of `metricBlock.replace(/^\s*\n/gm, '')` (yamlGenerator line 58). -/
def removeBlankLines (s : String) : String :=
  ⟨joinL (rbL (splitCh s.data))⟩

/-- Model of `s.split('\n').map(line => pre + line).join('\n')`
(yamlGenerator lines 71 and 91). -/
def indentLines (pre : String) (s : String) : String :=
  ⟨joinL ((splitCh s.data).map (fun l => pre.data ++ l))⟩

/-- Join a list of one-per-line strings with newlines; used below to write
the source's multi-line template literals one template line per list
entry, which is the same string value with the line breaks made explicit. -/
def joinLines (ls : List String) : String :=
  ⟨joinL (ls.map String.data)⟩

/-- Decidable prefix test on character lists. -/
def isPrefixCh : List Char → List Char → Bool
  | [], _ => true
  | _ :: _, [] => false
  | a :: as, b :: bs => a == b && isPrefixCh as bs

/-- Decidable substring (contiguous infix) test on character lists. -/
def infixCh : List Char → List Char → Bool
  | p, [] => isPrefixCh p []
  | p, c :: rest => isPrefixCh p (c :: rest) || infixCh p rest

/-- `strContains s pat` holds when `pat` occurs contiguously inside `s`. -/
def strContains (s pat : String) : Bool := infixCh pat.data s.data

/-! ## The k8s name pattern

`/^[a-z0-9]([-a-z0-9]*[a-z0-9])?$/` (App.tsx line 53), compiled to a
recursion: a single lowercase-alphanumeric character, or such a character
followed by a block of hyphens/lowercase-alphanumerics ending in a
lowercase-alphanumeric. -/

/-- Membership in the regex's `[a-z0-9]` class. -/
def isLowerAlnum (c : Char) : Bool :=
  ('a' ≤ c && c ≤ 'z') || ('0' ≤ c && c ≤ '9')

/-- Matches `[-a-z0-9]*[a-z0-9]` (a nonempty tail whose last character is
lowercase-alphanumeric and whose other characters also allow hyphens). -/
def tailOk : List Char → Bool
  | [] => false
  | [c] => isLowerAlnum c
  | c :: rest => (isLowerAlnum c || c = '-') && tailOk rest

/-- Matches the whole anchored pattern `^[a-z0-9]([-a-z0-9]*[a-z0-9])?$`. -/
def k8sMatch : List Char → Bool
  | [] => false
  | [c] => isLowerAlnum c
  | c :: rest => isLowerAlnum c && tailOk rest

/-- `k8sNameRegex.test name` (App.tsx line 58). -/
def k8sTest (s : String) : Bool := k8sMatch s.data

/-! ## The editor state (src/types.ts) -/

/-- `MetricSource` from src/types.ts. -/
structure MetricSource where
  type : String
  query : String
deriving DecidableEq

/-- `RatioMetric` from src/types.ts: optional good/bad, mandatory total. -/
structure RatioMetric where
  good : Option MetricSource
  bad : Option MetricSource
  total : MetricSource
deriving DecidableEq

/-- The comparison operator of a threshold metric. -/
inductive Operator where
  | lt
  | lte
  | gt
  | gte
deriving DecidableEq

/-- The string the source stores for each operator value. -/
def opStr : Operator → String
  | .lt => "lt"
  | .lte => "lte"
  | .gt => "gt"
  | .gte => "gte"

/-- `ThresholdMetric` from src/types.ts; `value` is `Option` because the
validator explicitly guards `value === undefined || value === null`. -/
structure ThresholdMetric where
  source : MetricSource
  operator : Operator
  value : Option JsNum
deriving DecidableEq

/-- `DocumentKind = 'SLO' | 'SLI'`. -/
inductive DocumentKind where
  | SLO
  | SLI
deriving DecidableEq

/-- `IndicatorMode = 'inline' | 'reference'`. -/
inductive IndicatorMode where
  | inl
  | reference
deriving DecidableEq

/-- `indicatorType: 'ratio' | 'threshold'`. -/
inductive IndicatorType where
  | threshold
  | ratio
deriving DecidableEq

/-- `BudgetingMethod` from src/types.ts. -/
inductive BudgetingMethod where
  | occurrences
  | timeslices
deriving DecidableEq

/-- The enum's string value, as interpolated into the document. -/
def bmStr : BudgetingMethod → String
  | .occurrences => "occurrences"
  | .timeslices => "timeslices"

/-- `TimeWindowUnit` from src/types.ts. -/
inductive TimeWindowUnit where
  | day
  | hour
  | minute
  | week
deriving DecidableEq

/-- The enum's string value ('d' | 'h' | 'm' | 'w'). -/
def unitStr : TimeWindowUnit → String
  | .day => "d"
  | .hour => "h"
  | .minute => "m"
  | .week => "w"

/-- `SloState` from src/types.ts.  `target` is `Option JsNum` because the
validator guards `undefined`/`null` explicitly and the runtime value may
also be the `NaN` sentinel; `indicatorRef` and the two metric objects are
optional exactly as in the TypeScript interface. -/
structure SloState where
  id : String
  apiVersion : String
  kind : DocumentKind
  name : String
  displayName : String
  description : String
  service : String
  app : String
  budgetingMethod : BudgetingMethod
  target : Option JsNum
  timeWindowCount : JsNum
  timeWindowUnit : TimeWindowUnit
  timeWindowRolling : Bool
  indicatorMode : IndicatorMode
  indicatorRef : Option String
  indicatorType : IndicatorType
  ratioMetric : Option RatioMetric
  thresholdMetric : Option ThresholdMetric
deriving DecidableEq

/-! ## The validator (App.tsx lines 51-112)

The source builds a `Record<string, string>` by inserting keys in a fixed
order; since every key is distinct, the record is modelled as the
association list of its insertions in source order. -/

/-- Truthiness of `x?.trim()` for an optional string: false (hence an
error) when the string is absent or blank. -/
def optTrimTruthy : Option String → Bool
  | none => false
  | some x => jsTrim x ≠ ""

/-- Name rule, App.tsx lines 56-60. -/
def nameErrs (s : SloState) : List (String × String) :=
  if jsTrim s.name = "" then [("name", "Name is required")]
  else if !k8sTest s.name then [("name", "Must be lowercase alphanumeric (kebab-case)")]
  else []

/-- Display-name rule, App.tsx line 62. -/
def displayNameErrs (s : SloState) : List (String × String) :=
  if jsTrim s.displayName = "" then [("displayName", "Display Name is required")] else []

/-- Service rule, App.tsx line 66. -/
def serviceErrs (s : SloState) : List (String × String) :=
  if jsTrim s.service = "" then [("service", "Service is required")] else []

/-- Target rule, App.tsx lines 69-73: `undefined`/`null` fails as
required; otherwise the JavaScript comparisons `target < 0 || target > 1`
decide the range message (so a `NaN` target takes neither branch). -/
def targetErrs (s : SloState) : List (String × String) :=
  match s.target with
  | none => [("target", "Target is required")]
  | some t =>
    if jsLt t (.num 0) || jsGt t (.num 1) then
      [("target", "Must be between 0.0 and 1.0")]
    else []

/-- Time-window-count rule, App.tsx lines 75-77. -/
def twcErrs (s : SloState) : List (String × String) :=
  if jsFalsy s.timeWindowCount || jsLe s.timeWindowCount (.num 0)
     || !jsIsInt s.timeWindowCount then
    [("timeWindowCount", "Must be a positive integer")]
  else []

/-- Indicator-reference rule, App.tsx lines 80-84. -/
def refErrs (s : SloState) : List (String × String) :=
  if s.indicatorMode = .reference then
    if !optTrimTruthy s.indicatorRef then
      [("indicatorRef", "SLI Reference name is required")]
    else []
  else []

/-- SLO-only rules, App.tsx lines 65-85: service, target, time window
count, and the indicator reference. -/
def sloErrs (s : SloState) : List (String × String) :=
  if s.kind = .SLO then serviceErrs s ++ targetErrs s ++ twcErrs s ++ refErrs s
  else []

/-- `state.thresholdMetric?.source.query.trim()` is falsy. -/
def thresholdQueryBlank (s : SloState) : Bool :=
  match s.thresholdMetric with
  | none => true
  | some tm => jsTrim tm.source.query = ""

/-- `state.thresholdMetric?.value === undefined || === null`. -/
def thresholdValueMissing (s : SloState) : Bool :=
  match s.thresholdMetric with
  | none => true
  | some tm => tm.value = none

/-- `state.ratioMetric?.total.query.trim()` is falsy. -/
def ratioTotalBlank (s : SloState) : Bool :=
  match s.ratioMetric with
  | none => true
  | some rm => jsTrim rm.total.query = ""

/-- `!!state.ratioMetric?.good?.query.trim()` (and likewise for bad):
the entry counts as present exactly when the object exists and its query
is non-blank after trimming. -/
def hasEntry (rm : Option RatioMetric) (pick : RatioMetric → Option MetricSource) : Bool :=
  match rm with
  | none => false
  | some r =>
    match pick r with
    | none => false
    | some m => jsTrim m.query ≠ ""

/-- `validateMetrics` (App.tsx line 88). -/
def validateMetrics (s : SloState) : Bool :=
  s.kind = .SLI || (s.kind = .SLO && s.indicatorMode = .inl)

/-- Threshold rules, App.tsx lines 91-97. -/
def thresholdErrs (s : SloState) : List (String × String) :=
  (if thresholdQueryBlank s then [("thresholdQuery", "Query is required")] else [])
  ++ (if thresholdValueMissing s then
        [("thresholdValue", "Threshold value is required")]
      else [])

/-- Ratio rules, App.tsx lines 98-107. -/
def ratioErrs (s : SloState) : List (String × String) :=
  (if ratioTotalBlank s then [("ratioTotal", "Total query is required")] else [])
  ++ (if !hasEntry s.ratioMetric RatioMetric.good
         && !hasEntry s.ratioMetric RatioMetric.bad then
        [("ratioGoodBad", "Either Good or Bad metric query is required")]
      else [])

/-- Metric rules, App.tsx lines 90-109. -/
def metricErrs (s : SloState) : List (String × String) :=
  if validateMetrics s then
    match s.indicatorType with
    | .threshold => thresholdErrs s
    | .ratio => ratioErrs s
  else []

/-- `validateState` (App.tsx lines 51-112): the four rule groups in
source insertion order. -/
def validateState (s : SloState) : List (String × String) :=
  nameErrs s ++ displayNameErrs s ++ sloErrs s ++ metricErrs s

/-! ## Number rendering

Template interpolation `${n}` calls JavaScript's number-to-string.  For
the terminating decimals this editor works with it prints the exact
decimal with no trailing zeros, which is reproduced here; a rational whose
denominator divides no power of ten takes an explicit fallback that the
claims never reach (a double never needs it). -/

/-- Smallest power of ten the denominator divides, searched far beyond
the precision of a double. -/
def findPow (d : Nat) : Option Nat :=
  (List.range 40).find? (fun k => 10 ^ k % d = 0)

/-- Left-pad a digit string with zeros to width `k`. -/
def padLeftZeros (k : Nat) (s : String) : String :=
  ⟨List.replicate (k - s.length) '0'⟩ ++ s

/-- Decimal rendering of a rational, matching JavaScript's output on every
terminating decimal. -/
def ratStr (q : ℚ) : String :=
  match findPow q.den with
  | some k =>
    let m : Nat := q.num.natAbs * 10 ^ k / q.den
    let sign := if q.num < 0 then "-" else ""
    if k = 0 then sign ++ toString m
    else sign ++ toString (m / 10 ^ k) ++ "." ++ padLeftZeros k (toString (m % 10 ^ k))
  | none => toString q.num ++ "/" ++ toString q.den

/-- `${n}` for a `JsNum`. -/
def jsNumStr : JsNum → String
  | .num q => ratStr q
  | .nan => "NaN"

/-- `${n}` for a possibly-undefined number. -/
def renderOptNum : Option JsNum → String
  | none => "undefined"
  | some n => jsNumStr n

/-- `${b}` for a boolean. -/
def boolStr : Bool → String
  | true => "true"
  | false => "false"

/-! ## The renderer (src/utils/yamlGenerator.ts) -/

/-- The threshold template (yamlGenerator lines 27-34), one template line
per entry. -/
def thresholdTpl (tm : ThresholdMetric) : String :=
  joinLines
    ["thresholdMetric:",
     "  metricSource:",
     "    type: " ++ tm.source.type,
     "    spec:",
     "      query: >-",
     "        " ++ tm.source.query,
     "  operator: " ++ opStr tm.operator,
     "  value: " ++ renderOptNum tm.value]

/-- The conditional good/bad fragment of the ratio template (yamlGenerator
lines 37-42 and 43-48): the entry's lines when the object is present, the
empty string otherwise. -/
def ratioEntryTpl (label : String) : Option MetricSource → String
  | none => ""
  | some m =>
    joinLines
      [label ++ ":",
       "    metricSource:",
       "      type: " ++ m.type,
       "      spec:",
       "        query: >-",
       "          " ++ m.query]

/-- The ratio template (yamlGenerator lines 36-54): the two conditional
fragments are interpolated after a literal `\n  ` separator, then the
mandatory total follows; one template line per entry, with the fragments
carrying their own interior line breaks. -/
def ratioTpl (rm : RatioMetric) : String :=
  joinLines
    ["ratioMetric:",
     "  " ++ ratioEntryTpl "good" rm.good,
     "  " ++ ratioEntryTpl "bad" rm.bad,
     "  total:",
     "    metricSource:",
     "      type: " ++ rm.total.type,
     "      spec:",
     "        query: >-",
     "          " ++ rm.total.query]

/-- `metricBlock` before the blank-line cleanup (yamlGenerator lines
25-55): the threshold branch when the type is threshold and the object is
present, the ratio branch when the type is ratio and the object is
present, the empty string otherwise. -/
def metricBlockRaw (s : SloState) : String :=
  match s.indicatorType with
  | .threshold =>
    match s.thresholdMetric with
    | some tm => thresholdTpl tm
    | none => ""
  | .ratio =>
    match s.ratioMetric with
    | some rm => ratioTpl rm
    | none => ""

/-- `metricBlock` after `replace(/^\s*\n/gm, '')` (line 58). -/
def metricBlock (s : SloState) : String :=
  removeBlankLines (metricBlockRaw s)

/-- `metadataLabels` (lines 61-66): emitted only when `app` is truthy and
non-blank after trimming. -/
def metadataLabels (s : SloState) : String :=
  if s.app ≠ "" ∧ jsTrim s.app ≠ "" then "\n  labels:\n    app: " ++ s.app else ""

/-- Truthiness of `indicatorRef` (line 87): defined and nonempty (a
whitespace-only reference is still truthy). -/
def refTruthy (s : SloState) : Bool :=
  match s.indicatorRef with
  | none => false
  | some r => r ≠ ""

/-- The SLO document's indicator section (lines 85-94). -/
def indicatorSection (s : SloState) : String :=
  if s.indicatorMode = .reference ∧ refTruthy s then
    "  indicatorRef: " ++ s.indicatorRef.getD ""
  else
    "  indicator:\n" ++ indentLines "    " (metricBlock s)

/-- The SLI document (lines 69-81). -/
def sliDoc (s : SloState) : String :=
  "apiVersion: " ++ s.apiVersion
  ++ "\nkind: SLI\nmetadata:\n  name: " ++ s.name
  ++ "\n  displayName: " ++ s.displayName ++ metadataLabels s
  ++ "\nspec:\n  description: " ++ s.description
  ++ "\n" ++ indentLines "  " (metricBlock s)

/-- The SLO document (lines 96-112). -/
def sloDoc (s : SloState) : String :=
  "apiVersion: " ++ s.apiVersion
  ++ "\nkind: SLO\nmetadata:\n  name: " ++ s.name
  ++ "\n  displayName: " ++ s.displayName ++ metadataLabels s
  ++ "\nspec:\n  description: " ++ s.description
  ++ "\n  service: " ++ s.service
  ++ "\n  budgetingMethod: " ++ bmStr s.budgetingMethod
  ++ "\n  objectives:\n    - displayName: " ++ s.displayName
  ++ "\n      target: " ++ renderOptNum s.target
  ++ "\n      timeWindow:\n        - rolling: " ++ boolStr s.timeWindowRolling
  ++ "\n          count: " ++ jsNumStr s.timeWindowCount
  ++ "\n          unit: " ++ unitStr s.timeWindowUnit
  ++ "\n" ++ indicatorSection s

/-- `generateYaml` (yamlGenerator lines 3-114). -/
def generateYaml (s : SloState) : String :=
  match s.kind with
  | .SLI => sliDoc s
  | .SLO => sloDoc s

/-! ### Faithfulness checks

The line-by-line template definitions above produce exactly the template
literals of the source (sampled on concrete inputs). -/

example :
    thresholdTpl { source := { type := "prometheus", query := "q" },
                   operator := .lte, value := some (.num (mkRat 1 2)) } =
      "thresholdMetric:\n  metricSource:\n    type: prometheus\n    spec:\n      query: >-\n        q\n  operator: lte\n  value: 0.5" := by
  decide

example :
    ratioTpl { good := none, bad := some { type := "p", query := "qb" },
               total := { type := "p", query := "qt" } } =
      "ratioMetric:\n  \n  bad:\n    metricSource:\n      type: p\n      spec:\n        query: >-\n          qb\n  total:\n    metricSource:\n      type: p\n      spec:\n        query: >-\n          qt" := by
  decide

example : removeBlankLines "ratioMetric:\n  \n  bad:\n    x" = "ratioMetric:\n  bad:\n    x" := by
  decide

example : indentLines "  " "a\nb" = "  a\n  b" := by decide

example : jsTrim "  a b\t" = "a b" := by decide

/-! ## Basic string and character-list lemmas -/

theorem data_append (a b : String) : (a ++ b).data = a.data ++ b.data := rfl

theorem string_ext {a b : String} (h : a.data = b.data) : a = b := by
  cases a
  cases b
  exact congrArg String.mk h

theorem isPrefixCh_self_append : ∀ a b : List Char, isPrefixCh a (a ++ b) = true := by
  intro a b
  induction a with
  | nil => rfl
  | cons c cs ih => simp [isPrefixCh, ih]

theorem isPrefixCh_refl (a : List Char) : isPrefixCh a a = true := by
  have h := isPrefixCh_self_append a []
  simpa using h

theorem infixCh_of_isPrefixCh {p s : List Char} (h : isPrefixCh p s = true) :
    infixCh p s = true := by
  cases s with
  | nil => simpa [infixCh] using h
  | cons c rest => simp [infixCh, h]

theorem infixCh_cons {p s : List Char} (c : Char) (h : infixCh p s = true) :
    infixCh p (c :: s) = true := by
  simp [infixCh, h]

theorem infixCh_append_left (a : List Char) {p s : List Char} (h : infixCh p s = true) :
    infixCh p (a ++ s) = true := by
  induction a with
  | nil => simpa using h
  | cons c cs ih => simpa [List.cons_append] using infixCh_cons c ih

theorem infixCh_append_mid (p m t : List Char) : infixCh m (p ++ (m ++ t)) = true :=
  infixCh_append_left p (infixCh_of_isPrefixCh (isPrefixCh_self_append m t))

theorem infixCh_append_suffix (p m : List Char) : infixCh m (p ++ m) = true :=
  infixCh_append_left p (infixCh_of_isPrefixCh (isPrefixCh_refl m))

theorem strContains_mid (p m t : String) : strContains (p ++ (m ++ t)) m = true := by
  unfold strContains
  rw [data_append, data_append]
  exact infixCh_append_mid _ _ _

theorem strContains_suffix (p m : String) : strContains (p ++ m) m = true := by
  unfold strContains
  rw [data_append]
  exact infixCh_append_suffix _ _

theorem strContains_append_left (a : String) {s pat : String}
    (h : strContains s pat = true) : strContains (a ++ s) pat = true := by
  unfold strContains at h ⊢
  rw [data_append]
  exact infixCh_append_left _ h

/-! ## Lemmas about `splitCh`, `rbL` and `joinL` -/

theorem splitCh_ne_nil (l : List Char) : splitCh l ≠ [] := by
  induction l with
  | nil => simp [splitCh]
  | cons c rest ih =>
    unfold splitCh
    by_cases h : c = '\n'
    · simp [h]
    · simp only [h, if_false]
      cases hs : splitCh rest <;> simp [consHd]

theorem consHd_append (c : Char) (l1 l2 : List (List Char)) (h : l1 ≠ []) :
    consHd c (l1 ++ l2) = consHd c l1 ++ l2 := by
  cases l1 with
  | nil => exact absurd rfl h
  | cons a as => rfl

theorem splitCh_append_nl (a b : List Char) :
    splitCh (a ++ '\n' :: b) = splitCh a ++ splitCh b := by
  induction a with
  | nil => simp [splitCh]
  | cons c rest ih =>
    by_cases h : c = '\n'
    · subst h
      simp [splitCh, ih]
    · simp [splitCh, h, ih, consHd_append c _ _ (splitCh_ne_nil rest)]

theorem splitCh_no_nl : ∀ {a : List Char}, '\n' ∉ a → splitCh a = [a] := by
  intro a h
  induction a with
  | nil => rfl
  | cons c rest ih =>
    have hc : ¬ c = '\n' := fun e => h (by simp [e])
    have hr : '\n' ∉ rest := fun e => h (List.mem_cons_of_mem _ e)
    simp [splitCh, hc, ih hr, consHd]

theorem splitCh_cons_line {a : List Char} (b : List Char) (h : '\n' ∉ a) :
    splitCh (a ++ '\n' :: b) = a :: splitCh b := by
  rw [splitCh_append_nl, splitCh_no_nl h]
  rfl

theorem mem_splitCh_no_nl : ∀ {s l : List Char}, l ∈ splitCh s → '\n' ∉ l := by
  intro s
  induction s with
  | nil =>
    intro l hl
    simp [splitCh] at hl
    simp [hl]
  | cons c rest ih =>
    intro l hl
    unfold splitCh at hl
    by_cases h : c = '\n'
    · simp only [h, if_true] at hl
      rcases List.mem_cons.1 hl with h1 | h1
      · simp [h1]
      · exact ih h1
    · simp only [h, if_false] at hl
      cases hs : splitCh rest with
      | nil => exact absurd hs (splitCh_ne_nil rest)
      | cons a as =>
        rw [hs, consHd] at hl
        rcases List.mem_cons.1 hl with h1 | h1
        · subst h1
          intro hmem
          rcases List.mem_cons.1 hmem with h2 | h2
          · exact h h2.symm
          · exact ih (hs ▸ List.mem_cons_self a as) h2
        · exact ih (hs ▸ List.mem_cons_of_mem a h1)

theorem joinL_cons (l : List Char) {ls : List (List Char)} (h : ls ≠ []) :
    joinL (l :: ls) = l ++ '\n' :: joinL ls := by
  cases ls with
  | nil => exact absurd rfl h
  | cons a as => rfl

theorem splitCh_joinL : ∀ {L : List (List Char)}, L ≠ [] →
    (∀ l ∈ L, '\n' ∉ l) → splitCh (joinL L) = L := by
  intro L
  induction L with
  | nil => intro h; exact absurd rfl h
  | cons a L ih =>
    intro _ hall
    cases L with
    | nil =>
      show splitCh (joinL [a]) = [a]
      exact splitCh_no_nl (hall a (List.mem_cons_self a []))
    | cons b L' =>
      rw [joinL_cons a (by simp), splitCh_cons_line _ (hall a (List.mem_cons_self _ _)),
        ih (by simp) (fun l hl => hall l (List.mem_cons_of_mem a hl))]

theorem splitCh_joinL_flat : ∀ {L : List (List Char)}, L ≠ [] →
    splitCh (joinL L) = (L.map splitCh).flatten := by
  intro L
  induction L with
  | nil => intro h; exact absurd rfl h
  | cons a L ih =>
    intro _
    cases L with
    | nil => simp [joinL]
    | cons b L' =>
      rw [joinL_cons a (by simp), splitCh_append_nl, ih (by simp)]
      simp

theorem rbL_cons (l : List Char) {ls : List (List Char)} (h : ls ≠ []) :
    rbL (l :: ls) = if isBlankL l then rbL ls else l :: rbL ls := by
  cases ls with
  | nil => exact absurd rfl h
  | cons a as => rfl

theorem rbL_ne_nil : ∀ {L : List (List Char)}, L ≠ [] → rbL L ≠ [] := by
  intro L
  induction L with
  | nil => intro h; exact absurd rfl h
  | cons a L ih =>
    intro _
    cases L with
    | nil => simp [rbL]
    | cons b L' =>
      rw [rbL_cons a (by simp)]
      by_cases hb : isBlankL a
      · simpa [hb] using ih (by simp)
      · simp [hb]

theorem rbL_subset : ∀ (L : List (List Char)) (l : List Char), l ∈ rbL L → l ∈ L := by
  intro L
  induction L with
  | nil => intro l hl; simp [rbL] at hl
  | cons a L ih =>
    intro l hl
    cases L with
    | nil =>
      simp [rbL] at hl
      simp [hl]
    | cons b L' =>
      rw [rbL_cons a (by simp)] at hl
      by_cases hb : isBlankL a
      · simp only [hb, if_true] at hl
        exact List.mem_cons_of_mem a (ih l hl)
      · simp only [hb, if_false] at hl
        rcases List.mem_cons.1 hl with h1 | h1
        · simp [h1]
        · exact List.mem_cons_of_mem a (ih l h1)

theorem rbL_middle : ∀ (u : List (List Char)) {x y : List Char} (v : List (List Char)),
    isBlankL x = false → isBlankL y = false →
    ∃ u' v', rbL (u ++ x :: y :: v) = u' ++ x :: y :: v' := by
  intro u
  induction u with
  | nil =>
    intro x y v hx hy
    cases v with
    | nil => exact ⟨[], [], by simp [rbL, hx, hy]⟩
    | cons c cs =>
      refine ⟨[], rbL (c :: cs), ?_⟩
      rw [List.nil_append, rbL_cons x (by simp), if_neg (by simp [hx]),
        rbL_cons y (by simp), if_neg (by simp [hy])]
      rfl
  | cons a u ih =>
    intro x y v hx hy
    obtain ⟨u', v', h⟩ := ih v hx hy
    rw [List.cons_append, rbL_cons a (by simp)]
    by_cases hb : isBlankL a
    · exact ⟨u', v', by simp [hb, h]⟩
    · exact ⟨a :: u', v', by simp [hb, h]⟩

theorem rbL_single : ∀ (u : List (List Char)) {x : List Char} (v : List (List Char)),
    isBlankL x = false →
    ∃ u' v', rbL (u ++ x :: v) = u' ++ x :: v' := by
  intro u
  induction u with
  | nil =>
    intro x v hx
    cases v with
    | nil => exact ⟨[], [], by simp [rbL]⟩
    | cons c cs =>
      refine ⟨[], rbL (c :: cs), ?_⟩
      rw [List.nil_append, rbL_cons x (by simp), if_neg (by simp [hx])]
      rfl
  | cons a u ih =>
    intro x v hx
    obtain ⟨u', v', h⟩ := ih v hx
    rw [List.cons_append, rbL_cons a (by simp)]
    by_cases hb : isBlankL a
    · exact ⟨u', v', by simp [hb, h]⟩
    · exact ⟨a :: u', v', by simp [hb, h]⟩

theorem joinL_middle : ∀ (u : List (List Char)) (a b : List Char) (v : List (List Char)),
    ∃ p t, joinL (u ++ a :: b :: v) = p ++ ((a ++ '\n' :: b) ++ t) := by
  intro u
  induction u with
  | nil =>
    intro a b v
    cases v with
    | nil => exact ⟨[], [], by simp [joinL]⟩
    | cons c cs =>
      refine ⟨[], '\n' :: joinL (c :: cs), ?_⟩
      rw [List.nil_append, joinL_cons a (by simp), joinL_cons b (by simp)]
      simp
  | cons l u ih =>
    intro a b v
    obtain ⟨p, t, h⟩ := ih a b v
    refine ⟨l ++ '\n' :: p, t, ?_⟩
    rw [List.cons_append, joinL_cons l (by simp), h]
    simp

theorem joinL_single : ∀ (u : List (List Char)) (a : List Char) (v : List (List Char)),
    ∃ p t, joinL (u ++ a :: v) = p ++ (a ++ t) := by
  intro u
  induction u with
  | nil =>
    intro a v
    cases v with
    | nil => exact ⟨[], [], by simp [joinL]⟩
    | cons c cs =>
      refine ⟨[], '\n' :: joinL (c :: cs), ?_⟩
      rw [List.nil_append, joinL_cons a (by simp)]
      rfl
  | cons l u ih =>
    intro a v
    obtain ⟨p, t, h⟩ := ih a v
    refine ⟨l ++ '\n' :: p, t, ?_⟩
    rw [List.cons_append, joinL_cons l (by simp), h]
    simp

/-! ## The validation rules as the specification words them

Each definition below transcribes the corresponding rule of spec section
4.1 (one definition per rule, named `spec...`), to be compared with the
implementation:
* name non-blank after trimming and matching the DNS-label pattern;
* displayName non-blank;
* for SLO: service non-blank, target defined and in the closed interval
  `[0,1]`, timeWindowCount a positive integer, indicatorRef non-blank in
  reference mode;
* when the indicator is defined in place: threshold query non-blank and
  threshold value defined, or ratio total query non-blank and at least one
  of the good/bad queries non-blank. -/

/-- Spec rule: name non-blank after trimming and matching the pattern. -/
def specNameOk (s : SloState) : Bool :=
  jsTrim s.name ≠ "" && k8sTest s.name

/-- Spec rule: displayName non-blank. -/
def specDisplayNameOk (s : SloState) : Bool :=
  jsTrim s.displayName ≠ ""

/-- Spec rule: service non-blank. -/
def specServiceOk (s : SloState) : Bool :=
  jsTrim s.service ≠ ""

/-- Spec rule: target defined (not undefined/null, and an actual number)
and inside the closed interval `[0,1]`. -/
def specTargetOk : Option JsNum → Bool
  | some (.num q) => decide (0 ≤ q) && decide (q ≤ 1)
  | _ => false

/-- Spec rule: a positive integer. -/
def isPosIntJs : JsNum → Bool
  | .num q => decide (0 < q) && decide (q.den = 1)
  | .nan => false

/-- Spec rule: indicatorRef present and non-blank. -/
def specRefOk : Option String → Bool
  | some r => jsTrim r ≠ ""
  | none => false

/-- Spec rule: an optional metric source whose query is non-blank. -/
def specQueryOk : Option MetricSource → Bool
  | some m => jsTrim m.query ≠ ""
  | none => false

/-- Spec rule: the threshold query is present and non-blank. -/
def specThresholdQueryOk : Option ThresholdMetric → Bool
  | some tm => jsTrim tm.source.query ≠ ""
  | none => false

/-- Spec rule: the threshold value is defined. -/
def specThresholdValueOk : Option ThresholdMetric → Bool
  | some tm => tm.value.isSome
  | none => false

/-- Spec rule: the ratio total query is present and non-blank. -/
def specRatioTotalOk : Option RatioMetric → Bool
  | some rm => jsTrim rm.total.query ≠ ""
  | none => false

/-- Spec rule: at least one of the good/bad queries is non-blank. -/
def specRatioGoodBadOk : Option RatioMetric → Bool
  | some rm => specQueryOk rm.good || specQueryOk rm.bad
  | none => false

/-- Spec scope of the metric rules: kind SLI, or kind SLO with an inline
indicator. -/
def specMetricsApply (s : SloState) : Bool :=
  s.kind = .SLI || (s.kind = .SLO && s.indicatorMode = .inl)

/-- The keys of the rules of spec section 4.1 that fail on `s`, listed in
the validator's fixed key order. -/
def specFailingKeys (s : SloState) : List String :=
  (if specNameOk s then [] else ["name"])
  ++ (if specDisplayNameOk s then [] else ["displayName"])
  ++ (if s.kind = .SLO then
        (if specServiceOk s then [] else ["service"])
        ++ (if specTargetOk s.target then [] else ["target"])
        ++ (if isPosIntJs s.timeWindowCount then [] else ["timeWindowCount"])
        ++ (if s.indicatorMode = .reference then
              (if specRefOk s.indicatorRef then [] else ["indicatorRef"])
            else [])
      else [])
  ++ (if specMetricsApply s then
        (match s.indicatorType with
         | .threshold =>
           (if specThresholdQueryOk s.thresholdMetric then [] else ["thresholdQuery"])
           ++ (if specThresholdValueOk s.thresholdMetric then [] else ["thresholdValue"])
         | .ratio =>
           (if specRatioTotalOk s.ratioMetric then [] else ["ratioTotal"])
           ++ (if specRatioGoodBadOk s.ratioMetric then [] else ["ratioGoodBad"]))
      else [])

/-! ## Keys of each validator rule group -/

theorem nameErrs_keys (s : SloState) :
    (nameErrs s).map Prod.fst = if specNameOk s then [] else ["name"] := by
  unfold nameErrs specNameOk
  by_cases h1 : jsTrim s.name = ""
  · simp [h1]
  · by_cases h2 : k8sTest s.name <;> simp [h1, h2]

theorem displayNameErrs_keys (s : SloState) :
    (displayNameErrs s).map Prod.fst = if specDisplayNameOk s then [] else ["displayName"] := by
  unfold displayNameErrs specDisplayNameOk
  by_cases h : jsTrim s.displayName = "" <;> simp [h]

theorem serviceErrs_keys (s : SloState) :
    (serviceErrs s).map Prod.fst = if specServiceOk s then [] else ["service"] := by
  unfold serviceErrs specServiceOk
  by_cases h : jsTrim s.service = "" <;> simp [h]

theorem targetErrs_keys (s : SloState) (h : s.target ≠ some JsNum.nan) :
    (targetErrs s).map Prod.fst = if specTargetOk s.target then [] else ["target"] := by
  unfold targetErrs specTargetOk
  cases ht : s.target with
  | none => simp
  | some t =>
    cases t with
    | nan => exact absurd ht h
    | num q =>
      simp only [jsLt, jsGt]
      by_cases h0 : q < 0
      · have h0' : ¬ (0 : ℚ) ≤ q := not_le.mpr h0
        simp [h0, h0']
      · by_cases h1 : q > 1
        · have h1' : ¬ q ≤ 1 := not_le.mpr h1
          simp [h0, h1, h1']
        · have h0' : (0 : ℚ) ≤ q := not_lt.mp h0
          have h1' : q ≤ 1 := not_lt.mp h1
          simp [h0, h1, h0', h1']

/-- The time-window-count condition of the code (falsy, `<= 0`, or not an
integer under JavaScript semantics) is the negation of "positive integer". -/
theorem twcCond_eq (n : JsNum) :
    (jsFalsy n || jsLe n (.num 0) || !jsIsInt n) = !isPosIntJs n := by
  cases n with
  | nan => rfl
  | num q =>
    simp only [jsFalsy, jsLe, jsIsInt, isPosIntJs]
    by_cases h0 : q ≤ 0
    · have h1 : ¬ 0 < q := not_lt.mpr h0
      have h2 : q = 0 ∨ ¬ q = 0 := em _
      rcases h2 with h2 | h2 <;> simp [h0, h1, h2]
    · have h1 : 0 < q := not_le.mp h0
      have h2 : ¬ q = 0 := ne_of_gt h1
      by_cases hd : q.den = 1 <;> simp [h0, h1, h2, hd]

theorem twcErrs_keys (s : SloState) :
    (twcErrs s).map Prod.fst =
      if isPosIntJs s.timeWindowCount then [] else ["timeWindowCount"] := by
  unfold twcErrs
  rw [twcCond_eq]
  by_cases h : isPosIntJs s.timeWindowCount <;> simp [h]

theorem optTrimTruthy_eq_specRefOk (r : Option String) : optTrimTruthy r = specRefOk r := by
  cases r <;> rfl

theorem refErrs_keys (s : SloState) :
    (refErrs s).map Prod.fst =
      if s.indicatorMode = .reference then
        (if specRefOk s.indicatorRef then [] else ["indicatorRef"])
      else [] := by
  unfold refErrs
  rw [optTrimTruthy_eq_specRefOk]
  by_cases hm : s.indicatorMode = .reference
  · by_cases hr : specRefOk s.indicatorRef <;> simp [hm, hr]
  · simp [hm]

theorem sloErrs_keys (s : SloState) (h : s.target ≠ some JsNum.nan) :
    (sloErrs s).map Prod.fst =
      if s.kind = .SLO then
        (if specServiceOk s then [] else ["service"])
        ++ (if specTargetOk s.target then [] else ["target"])
        ++ (if isPosIntJs s.timeWindowCount then [] else ["timeWindowCount"])
        ++ (if s.indicatorMode = .reference then
              (if specRefOk s.indicatorRef then [] else ["indicatorRef"])
            else [])
      else [] := by
  unfold sloErrs
  by_cases hk : s.kind = .SLO
  · simp only [hk, if_true, List.map_append]
    rw [serviceErrs_keys, targetErrs_keys s h, twcErrs_keys, refErrs_keys]
  · simp [hk]

theorem thresholdErrs_keys (s : SloState) :
    (thresholdErrs s).map Prod.fst =
      (if specThresholdQueryOk s.thresholdMetric then [] else ["thresholdQuery"])
      ++ (if specThresholdValueOk s.thresholdMetric then [] else ["thresholdValue"]) := by
  unfold thresholdErrs thresholdQueryBlank thresholdValueMissing
  unfold specThresholdQueryOk specThresholdValueOk
  cases htm : s.thresholdMetric with
  | none => simp
  | some tm =>
    by_cases hq : jsTrim tm.source.query = ""
    · cases hv : tm.value <;> simp [hq, hv]
    · cases hv : tm.value <;> simp [hq, hv]

theorem hasEntry_some (r : RatioMetric) (pick : RatioMetric → Option MetricSource) :
    hasEntry (some r) pick = specQueryOk (pick r) := by
  cases h : pick r <;> simp [hasEntry, specQueryOk, h]

theorem ratioErrs_keys (s : SloState) :
    (ratioErrs s).map Prod.fst =
      (if specRatioTotalOk s.ratioMetric then [] else ["ratioTotal"])
      ++ (if specRatioGoodBadOk s.ratioMetric then [] else ["ratioGoodBad"]) := by
  unfold ratioErrs ratioTotalBlank specRatioTotalOk specRatioGoodBadOk
  cases hrm : s.ratioMetric with
  | none => simp [hasEntry]
  | some rm =>
    rw [hasEntry_some, hasEntry_some]
    by_cases ht : jsTrim rm.total.query = "" <;>
      by_cases hg1 : specQueryOk rm.good = true <;>
      by_cases hb1 : specQueryOk rm.bad = true <;>
      simp [ht, hg1, hb1]

theorem metricErrs_keys (s : SloState) :
    (metricErrs s).map Prod.fst =
      if specMetricsApply s then
        (match s.indicatorType with
         | .threshold =>
           (if specThresholdQueryOk s.thresholdMetric then [] else ["thresholdQuery"])
           ++ (if specThresholdValueOk s.thresholdMetric then [] else ["thresholdValue"])
         | .ratio =>
           (if specRatioTotalOk s.ratioMetric then [] else ["ratioTotal"])
           ++ (if specRatioGoodBadOk s.ratioMetric then [] else ["ratioGoodBad"]))
      else [] := by
  unfold metricErrs
  have hvm : validateMetrics s = specMetricsApply s := rfl
  rw [hvm]
  by_cases ha : specMetricsApply s
  · cases hit : s.indicatorType <;>
      simp [ha, hit, thresholdErrs_keys, ratioErrs_keys]
  · simp [ha]

/-! ## Concrete configurations used by the test-case conjuncts -/

/-- A fully valid reference-mode SLO configuration, the base input of the
concrete test cases below. -/
def cfgRefValid : SloState :=
  { id := "", apiVersion := "openslo/v1", kind := .SLO,
    name := "my-service", displayName := "My Service",
    description := "d", service := "api", app := "",
    budgetingMethod := .occurrences, target := some (.num (mkRat 999 1000)),
    timeWindowCount := .num 28, timeWindowUnit := .day, timeWindowRolling := true,
    indicatorMode := .reference, indicatorRef := some "worker-latency-sli",
    indicatorType := .threshold, ratioMetric := none, thresholdMetric := none }

/-- The valid reference-mode configuration with its target replaced by the
`NaN` sentinel. -/
def cfgNanTarget : SloState := { cfgRefValid with target := some .nan }

/-! ## Claim C1 -/

/-- C1, amended: for every configuration whose target is not the `NaN`
sentinel, the key list of `validate(config)` is exactly the list of
failed rules of spec section 4.1 — hence the mapping is empty iff every
rule passes, and a configuration violating exactly one rule yields exactly
that rule's key.  (The amendment is forced by `C1_nan_counterexample`:
a `NaN` target fails the spec's range rule but passes the code's
comparisons.) -/
theorem C1_validate_keys (s : SloState) (h : s.target ≠ some JsNum.nan) :
    (validateState s).map Prod.fst = specFailingKeys s := by
  unfold validateState specFailingKeys
  rw [List.map_append, List.map_append, List.map_append,
    nameErrs_keys, displayNameErrs_keys, sloErrs_keys s h, metricErrs_keys]

/-- Witness for C1 at the concrete valid configuration. -/
theorem C1_validate_keys_witness :
    (validateState cfgRefValid).map Prod.fst = specFailingKeys cfgRefValid :=
  C1_validate_keys cfgRefValid (by decide)

/-- C1 counterexample: with a `NaN` target (all other fields valid),
`validate` returns the empty mapping although the spec's target rule
("defined and in `[0,1]`") fails, refuting the claimed equivalence as
stated. -/
theorem C1_nan_counterexample :
    validateState cfgNanTarget = [] ∧ specFailingKeys cfgNanTarget = ["target"] :=
  ⟨by decide, by decide⟩

/-! ## Claim C2 -/

/-- C2, evaluation at the failing input: with a `NaN` target the validator
reports nothing (the `undefined`/`null` guard does not fire and both
JavaScript comparisons are false), and the renderer emits the line
`target: NaN` — the code violates the spec's error-handling mandate that a
non-numeric target fail validation and never reach the output. -/
theorem C2_nan_divergence :
    validateState cfgNanTarget = [] ∧
      strContains (generateYaml cfgNanTarget) "target: NaN" = true :=
  ⟨by decide, by decide⟩

/-! ## Lookup machinery for the error mapping -/

theorem lookup_append (l₁ l₂ : List (String × String)) (k : String) :
    (l₁ ++ l₂).lookup k = ((l₁.lookup k).or (l₂.lookup k)) := by
  induction l₁ with
  | nil => simp [List.lookup, Option.or]
  | cons p t ih =>
    cases p with
    | mk a b =>
      by_cases h : (k == a) = true
      · simp [List.lookup, h, Option.or]
      · simp [List.lookup, h, ih]

theorem lookup_eq_none : ∀ {l : List (String × String)} {k : String},
    (∀ p ∈ l, p.1 ≠ k) → l.lookup k = none := by
  intro l
  induction l with
  | nil => intro k _; rfl
  | cons p t ih =>
    intro k h
    cases p with
    | mk a b =>
      have ha : a ≠ k := h (a, b) (List.mem_cons_self _ _)
      have hb : (k == a) = false := by
        rw [beq_eq_false_iff_ne]
        exact fun e => ha e.symm
      simp [List.lookup, hb, ih (fun q hq => h q (List.mem_cons_of_mem _ hq))]

theorem nameErrs_key {s : SloState} {p : String × String} (hp : p ∈ nameErrs s) :
    p.1 = "name" := by
  unfold nameErrs at hp
  split at hp
  · simp at hp
    simp [hp]
  · split at hp
    · simp at hp
      simp [hp]
    · simp at hp

theorem displayNameErrs_key {s : SloState} {p : String × String}
    (hp : p ∈ displayNameErrs s) : p.1 = "displayName" := by
  unfold displayNameErrs at hp
  split at hp
  · simp at hp
    simp [hp]
  · simp at hp

theorem serviceErrs_key {s : SloState} {p : String × String}
    (hp : p ∈ serviceErrs s) : p.1 = "service" := by
  unfold serviceErrs at hp
  split at hp
  · simp at hp
    simp [hp]
  · simp at hp

theorem targetErrs_key {s : SloState} {p : String × String}
    (hp : p ∈ targetErrs s) : p.1 = "target" := by
  unfold targetErrs at hp
  split at hp
  · simp at hp
    simp [hp]
  · split at hp
    · simp at hp
      simp [hp]
    · simp at hp

theorem twcErrs_key {s : SloState} {p : String × String}
    (hp : p ∈ twcErrs s) : p.1 = "timeWindowCount" := by
  unfold twcErrs at hp
  split at hp
  · simp at hp
    simp [hp]
  · simp at hp

theorem refErrs_key {s : SloState} {p : String × String}
    (hp : p ∈ refErrs s) : p.1 = "indicatorRef" := by
  unfold refErrs at hp
  split at hp
  · split at hp
    · simp at hp
      simp [hp]
    · simp at hp
  · simp at hp

theorem sloErrs_key {s : SloState} {p : String × String} (hp : p ∈ sloErrs s) :
    p.1 = "service" ∨ p.1 = "target" ∨ p.1 = "timeWindowCount" ∨ p.1 = "indicatorRef" := by
  unfold sloErrs at hp
  split at hp
  · rcases List.mem_append.1 hp with h | h
    · rcases List.mem_append.1 h with h1 | h1
      · rcases List.mem_append.1 h1 with h2 | h2
        · exact Or.inl (serviceErrs_key h2)
        · exact Or.inr (Or.inl (targetErrs_key h2))
      · exact Or.inr (Or.inr (Or.inl (twcErrs_key h1)))
    · exact Or.inr (Or.inr (Or.inr (refErrs_key h)))
  · simp at hp

theorem thresholdErrs_key {s : SloState} {p : String × String}
    (hp : p ∈ thresholdErrs s) : p.1 = "thresholdQuery" ∨ p.1 = "thresholdValue" := by
  unfold thresholdErrs at hp
  rcases List.mem_append.1 hp with h | h
  · left
    revert h
    split
    · intro h; simp at h; simp [h]
    · intro h; simp at h
  · right
    revert h
    split
    · intro h; simp at h; simp [h]
    · intro h; simp at h

theorem ratioErrs_key {s : SloState} {p : String × String}
    (hp : p ∈ ratioErrs s) : p.1 = "ratioTotal" ∨ p.1 = "ratioGoodBad" := by
  unfold ratioErrs at hp
  rcases List.mem_append.1 hp with h | h
  · left
    revert h
    split
    · intro h; simp at h; simp [h]
    · intro h; simp at h
  · right
    revert h
    split
    · intro h; simp at h; simp [h]
    · intro h; simp at h

theorem metricErrs_key {s : SloState} {p : String × String} (hp : p ∈ metricErrs s) :
    p.1 = "thresholdQuery" ∨ p.1 = "thresholdValue"
      ∨ p.1 = "ratioTotal" ∨ p.1 = "ratioGoodBad" := by
  unfold metricErrs at hp
  split at hp
  · split at hp
    · rcases thresholdErrs_key hp with h | h
      · exact Or.inl h
      · exact Or.inr (Or.inl h)
    · rcases ratioErrs_key hp with h | h
      · exact Or.inr (Or.inr (Or.inl h))
      · exact Or.inr (Or.inr (Or.inr h))
  · simp at hp

theorem validate_lookup_chunks (s : SloState) (k : String) :
    (validateState s).lookup k =
      ((((nameErrs s).lookup k).or ((displayNameErrs s).lookup k)).or
        ((sloErrs s).lookup k)).or ((metricErrs s).lookup k) := by
  unfold validateState
  rw [lookup_append, lookup_append, lookup_append]

theorem sloErrs_lookup (s : SloState) (h : s.kind = .SLO) (k : String) :
    (sloErrs s).lookup k =
      ((((serviceErrs s).lookup k).or ((targetErrs s).lookup k)).or
        ((twcErrs s).lookup k)).or ((refErrs s).lookup k) := by
  unfold sloErrs
  rw [if_pos h, lookup_append, lookup_append, lookup_append]

/-! ## Claim C6 -/

/-- The valid reference-mode configuration with its name replaced. -/
def cfgWithName (n : String) : SloState := { cfgRefValid with name := n }

/-- C6: the validator attaches the required message under `name` exactly
when the name is blank after trimming, and otherwise attaches the pattern
message exactly when the name fails `^[a-z0-9]([-a-z0-9]*[a-z0-9])?$`;
the spec's sample names behave as stated. -/
theorem C6_name_rule :
    (∀ s : SloState, (validateState s).lookup "name" =
        (if jsTrim s.name = "" then some "Name is required"
         else if !k8sTest s.name then some "Must be lowercase alphanumeric (kebab-case)"
         else none))
    ∧ (validateState (cfgWithName "my-service")).lookup "name" = none
    ∧ (validateState (cfgWithName "a")).lookup "name" = none
    ∧ (validateState (cfgWithName "a1-b2")).lookup "name" = none
    ∧ (validateState (cfgWithName "My-Service")).lookup "name" ≠ none
    ∧ (validateState (cfgWithName "-abc")).lookup "name" ≠ none
    ∧ (validateState (cfgWithName "abc-")).lookup "name" ≠ none
    ∧ (validateState (cfgWithName "ab_c")).lookup "name" ≠ none
    ∧ (validateState (cfgWithName "")).lookup "name" ≠ none := by
  refine ⟨?_, by decide, by decide, by decide, by decide, by decide, by decide,
    by decide, by decide⟩
  intro s
  have hd : (displayNameErrs s).lookup "name" = none :=
    lookup_eq_none (fun p hp => by rw [displayNameErrs_key hp]; decide)
  have hsl : (sloErrs s).lookup "name" = none :=
    lookup_eq_none (fun p hp => by
      rcases sloErrs_key hp with h | h | h | h <;> rw [h] <;> decide)
  have hm : (metricErrs s).lookup "name" = none :=
    lookup_eq_none (fun p hp => by
      rcases metricErrs_key hp with h | h | h | h <;> rw [h] <;> decide)
  rw [validate_lookup_chunks, hd, hsl, hm]
  by_cases h1 : jsTrim s.name = ""
  · simp [nameErrs, h1, List.lookup, Option.or]
  · by_cases h2 : k8sTest s.name <;> simp [nameErrs, h1, h2, List.lookup, Option.or]

/-- Witness for C6's universal part at a concrete configuration. -/
theorem C6_name_rule_witness :
    (validateState (cfgWithName "ab_c")).lookup "name" =
      some "Must be lowercase alphanumeric (kebab-case)" := by
  rw [C6_name_rule.1 (cfgWithName "ab_c")]
  decide

/-! ## Claim C7 -/

/-- C7, amended: for an SLO configuration the validator attaches the
required message under `target` exactly when the target is
undefined/null, and otherwise attaches the range message exactly when the
target is a genuine number outside `[0,1]`; a `NaN` target produces no
entry (the amendment forced by `C7_nan_counterexample`).  The spec's
boundary samples behave as stated. -/
theorem C7_target_rule :
    (∀ s : SloState, s.kind = .SLO →
        (validateState s).lookup "target" =
          (match s.target with
           | none => some "Target is required"
           | some .nan => none
           | some (.num q) =>
             if q < 0 ∨ 1 < q then some "Must be between 0.0 and 1.0" else none))
    ∧ (validateState { cfgRefValid with target := some (.num (mkRat 0 1)) }).lookup "target" = none
    ∧ (validateState { cfgRefValid with target := some (.num (mkRat 1 1)) }).lookup "target" = none
    ∧ (validateState { cfgRefValid with target := some (.num (mkRat (-1) 10000)) }).lookup "target" ≠ none
    ∧ (validateState { cfgRefValid with target := some (.num (mkRat 10001 10000)) }).lookup "target" ≠ none
    ∧ (validateState { cfgRefValid with target := none }).lookup "target" ≠ none := by
  refine ⟨?_, by decide, by decide, by decide, by decide, by decide⟩
  intro s hk
  have hn : (nameErrs s).lookup "target" = none :=
    lookup_eq_none (fun p hp => by rw [nameErrs_key hp]; decide)
  have hd : (displayNameErrs s).lookup "target" = none :=
    lookup_eq_none (fun p hp => by rw [displayNameErrs_key hp]; decide)
  have hsv : (serviceErrs s).lookup "target" = none :=
    lookup_eq_none (fun p hp => by rw [serviceErrs_key hp]; decide)
  have htw : (twcErrs s).lookup "target" = none :=
    lookup_eq_none (fun p hp => by rw [twcErrs_key hp]; decide)
  have hrf : (refErrs s).lookup "target" = none :=
    lookup_eq_none (fun p hp => by rw [refErrs_key hp]; decide)
  have hm : (metricErrs s).lookup "target" = none :=
    lookup_eq_none (fun p hp => by
      rcases metricErrs_key hp with h | h | h | h <;> rw [h] <;> decide)
  rw [validate_lookup_chunks, sloErrs_lookup s hk, hn, hd, hsv, htw, hrf, hm]
  cases ht : s.target with
  | none => simp [targetErrs, ht, List.lookup, Option.or]
  | some t =>
    cases t with
    | nan => simp [targetErrs, ht, jsLt, jsGt, Option.or]
    | num q =>
      by_cases h0 : q < 0
      · simp [targetErrs, ht, jsLt, jsGt, h0, List.lookup, Option.or]
      · by_cases h1 : 1 < q <;>
          simp [targetErrs, ht, jsLt, jsGt, h0, h1, List.lookup, Option.or]

/-- Witness for C7's universal part at a concrete configuration. -/
theorem C7_target_rule_witness :
    (validateState { cfgRefValid with target := some (.num (mkRat 3 2)) }).lookup "target" =
      some "Must be between 0.0 and 1.0" := by
  rw [C7_target_rule.1 _ (by decide)]
  decide

/-- C7 counterexample: with a `NaN` target the code attaches no entry
under `target`, although the target is defined (not undefined/null) and
lies outside the closed interval `[0,1]`, refuting the rule as claimed. -/
theorem C7_nan_counterexample :
    cfgNanTarget.kind = .SLO ∧ cfgNanTarget.target ≠ none ∧
      specTargetOk cfgNanTarget.target = false ∧
      (validateState cfgNanTarget).lookup "target" = none :=
  ⟨rfl, by decide, by decide, by decide⟩

/-! ## Claim C8 -/

/-- C8: the code's time-window-count condition (falsy, `<= 0`, or not an
integer) is exactly "not a positive integer", and for an SLO configuration
the validator attaches the message under `timeWindowCount` exactly when
that condition holds; the spec's samples 1, 0, -5 and 2.5 behave as
stated. -/
theorem C8_time_window_count_rule :
    (∀ n : JsNum, (jsFalsy n || jsLe n (.num 0) || !jsIsInt n) = !isPosIntJs n)
    ∧ (∀ s : SloState, s.kind = .SLO →
        (validateState s).lookup "timeWindowCount" =
          (if isPosIntJs s.timeWindowCount then none
           else some "Must be a positive integer"))
    ∧ (validateState { cfgRefValid with timeWindowCount := .num 1 }).lookup "timeWindowCount" = none
    ∧ (validateState { cfgRefValid with timeWindowCount := .num 0 }).lookup "timeWindowCount" ≠ none
    ∧ (validateState { cfgRefValid with timeWindowCount := .num (mkRat (-5) 1) }).lookup "timeWindowCount" ≠ none
    ∧ (validateState { cfgRefValid with timeWindowCount := .num (mkRat 5 2) }).lookup "timeWindowCount" ≠ none := by
  refine ⟨twcCond_eq, ?_, by decide, by decide, by decide, by decide⟩
  intro s hk
  have hn : (nameErrs s).lookup "timeWindowCount" = none :=
    lookup_eq_none (fun p hp => by rw [nameErrs_key hp]; decide)
  have hd : (displayNameErrs s).lookup "timeWindowCount" = none :=
    lookup_eq_none (fun p hp => by rw [displayNameErrs_key hp]; decide)
  have hsv : (serviceErrs s).lookup "timeWindowCount" = none :=
    lookup_eq_none (fun p hp => by rw [serviceErrs_key hp]; decide)
  have htg : (targetErrs s).lookup "timeWindowCount" = none :=
    lookup_eq_none (fun p hp => by rw [targetErrs_key hp]; decide)
  have hrf : (refErrs s).lookup "timeWindowCount" = none :=
    lookup_eq_none (fun p hp => by rw [refErrs_key hp]; decide)
  have hm : (metricErrs s).lookup "timeWindowCount" = none :=
    lookup_eq_none (fun p hp => by
      rcases metricErrs_key hp with h | h | h | h <;> rw [h] <;> decide)
  rw [validate_lookup_chunks, sloErrs_lookup s hk, hn, hd, hsv, htg, hrf, hm]
  unfold twcErrs
  rw [twcCond_eq]
  by_cases h : isPosIntJs s.timeWindowCount <;> simp [h, List.lookup, Option.or]

/-! ## Renderer machinery

The next group of lemmas tracks a line (or a pair of adjacent lines) of
the raw metric block through the three renderer stages: blank-line
stripping, per-line indentation, and document assembly. -/

theorem isBlankL_append (a b : List Char) :
    isBlankL (a ++ b) = (isBlankL a && isBlankL b) :=
  List.all_append

theorem str_append_assoc (a b c : String) : (a ++ b) ++ c = a ++ (b ++ c) :=
  string_ext (by simp [data_append])

/-- `startsWith`, on the character-list model. -/
def strStartsWith (s pat : String) : Bool := isPrefixCh pat.data s.data

theorem strStartsWith_append (pat rest : String) :
    strStartsWith (pat ++ rest) pat = true := by
  unfold strStartsWith
  rw [data_append]
  exact isPrefixCh_self_append _ _

/-- A leading fragment on the same line merges into the first entry of a
line list. -/
theorem prefix_joinLines (p l₀ : String) (rest : List String) :
    p ++ joinLines (l₀ :: rest) = joinLines ((p ++ l₀) :: rest) := by
  apply string_ext
  show p.data ++ joinL ((l₀ :: rest).map String.data) =
    joinL (((p ++ l₀) :: rest).map String.data)
  cases rest with
  | nil => simp [joinL, data_append]
  | cons r rs =>
    simp only [List.map_cons]
    rw [joinL_cons l₀.data (by simp), joinL_cons (p ++ l₀).data (by simp)]
    simp [data_append, List.append_assoc]

theorem splitCh_joinLines (ls : List String) (h : ls ≠ []) :
    splitCh (joinLines ls).data = ((ls.map String.data).map splitCh).flatten := by
  show splitCh (joinL (ls.map String.data)) = _
  exact splitCh_joinL_flat (by simpa using h)

/-- The first line of a joined line list, when it has no newline of its
own, is the first split segment. -/
theorem splitCh_joinLines_head (l₀ : String) (rest : List String)
    (h0 : '\n' ∉ l₀.data) (h : rest ≠ []) :
    ∃ w, splitCh (joinLines (l₀ :: rest)).data = l₀.data :: w := by
  show ∃ w, splitCh (joinL ((l₀ :: rest).map String.data)) = l₀.data :: w
  rw [List.map_cons, joinL_cons _ (by simpa using h), splitCh_cons_line _ h0]
  exact ⟨_, rfl⟩

/-- A pair of adjacent non-blank lines of the raw block survives the
blank-line stripping and the indentation, and therefore occurs (with the
indent inserted at the line break) in the processed block. -/
theorem contains_pair_processed (pre : String) (s : String) {u v : List (List Char)}
    {x y : List Char} (hsplit : splitCh s.data = u ++ x :: y :: v)
    (hx : isBlankL x = false) (hy : isBlankL y = false) :
    strContains (indentLines pre (removeBlankLines s)) ⟨x ++ '\n' :: (pre.data ++ y)⟩ = true := by
  obtain ⟨u', v', hrb⟩ := rbL_middle u v hx hy
  have hnn : ∀ l ∈ rbL (splitCh s.data), '\n' ∉ l :=
    fun l hl => mem_splitCh_no_nl (rbL_subset _ l hl)
  have hne : rbL (splitCh s.data) ≠ [] := rbL_ne_nil (splitCh_ne_nil _)
  have hsj : splitCh (removeBlankLines s).data = rbL (splitCh s.data) :=
    splitCh_joinL hne hnn
  show infixCh (x ++ '\n' :: (pre.data ++ y))
    (joinL ((splitCh (removeBlankLines s).data).map (fun l => pre.data ++ l))) = true
  rw [hsj, hsplit, hrb]
  simp only [List.map_append, List.map_cons]
  obtain ⟨p, t, hj⟩ :=
    joinL_middle (u'.map (fun l => pre.data ++ l)) (pre.data ++ x) (pre.data ++ y)
      (v'.map (fun l => pre.data ++ l))
  rw [hj]
  have hre : ((pre.data ++ x) ++ '\n' :: (pre.data ++ y)) ++ t =
      pre.data ++ ((x ++ '\n' :: (pre.data ++ y)) ++ t) := by
    simp [List.append_assoc]
  rw [hre]
  exact infixCh_append_left _ (infixCh_append_left _
    (infixCh_of_isPrefixCh (isPrefixCh_self_append _ _)))

/-- A single non-blank line of the raw block survives the blank-line
stripping and the indentation, and therefore occurs in the processed
block. -/
theorem contains_line_processed (pre : String) (s : String) {u v : List (List Char)}
    {x : List Char} (hsplit : splitCh s.data = u ++ x :: v) (hx : isBlankL x = false) :
    strContains (indentLines pre (removeBlankLines s)) ⟨x⟩ = true := by
  obtain ⟨u', v', hrb⟩ := rbL_single u v hx
  have hnn : ∀ l ∈ rbL (splitCh s.data), '\n' ∉ l :=
    fun l hl => mem_splitCh_no_nl (rbL_subset _ l hl)
  have hne : rbL (splitCh s.data) ≠ [] := rbL_ne_nil (splitCh_ne_nil _)
  have hsj : splitCh (removeBlankLines s).data = rbL (splitCh s.data) :=
    splitCh_joinL hne hnn
  show infixCh x
    (joinL ((splitCh (removeBlankLines s).data).map (fun l => pre.data ++ l))) = true
  rw [hsj, hsplit, hrb]
  simp only [List.map_append, List.map_cons]
  obtain ⟨p, t, hj⟩ :=
    joinL_single (u'.map (fun l => pre.data ++ l)) (pre.data ++ x)
      (v'.map (fun l => pre.data ++ l))
  rw [hj]
  have hre : (pre.data ++ x) ++ t = pre.data ++ (x ++ t) := by
    simp [List.append_assoc]
  rw [hre]
  exact infixCh_append_left _ (infixCh_append_left _
    (infixCh_of_isPrefixCh (isPrefixCh_self_append _ _)))

/-- Containment in the processed metric block transfers to the SLI
document, which ends with the block indented by two spaces. -/
theorem contains_metric_sli (s : SloState) {pat : String} (hk : s.kind = .SLI)
    (h : strContains (indentLines "  " (metricBlock s)) pat = true) :
    strContains (generateYaml s) pat = true := by
  have hg : generateYaml s = sliDoc s := by simp [generateYaml, hk]
  rw [hg]
  unfold sliDoc
  exact strContains_append_left _ h

/-- Containment in the processed metric block transfers to the SLO
document whenever the inline indicator branch is taken (inline mode, or
reference mode with a falsy reference), which ends with the block indented
by four spaces under `indicator:`. -/
theorem contains_metric_slo (s : SloState) {pat : String} (hk : s.kind = .SLO)
    (hsec : s.indicatorMode = .inl ∨ refTruthy s = false)
    (h : strContains (indentLines "    " (metricBlock s)) pat = true) :
    strContains (generateYaml s) pat = true := by
  have hg : generateYaml s = sloDoc s := by simp [generateYaml, hk]
  have hs : indicatorSection s = "  indicator:\n" ++ indentLines "    " (metricBlock s) := by
    unfold indicatorSection
    rcases hsec with hm | hm <;> simp [hm]
  rw [hg]
  unfold sloDoc
  rw [hs]
  exact strContains_append_left _ (strContains_append_left _ h)

/-! ## Line decompositions of the metric templates

Only the query under scrutiny needs to be newline-free; every other
interpolated fragment (source type, operator, rendered value, the other
ratio entries) is kept as an opaque segment list. -/

theorem splitCh_thresholdTpl (tm : ThresholdMetric) (hq : '\n' ∉ tm.source.query.data) :
    splitCh (thresholdTpl tm).data =
      ["thresholdMetric:".data, "  metricSource:".data]
      ++ splitCh ("    type: " ++ tm.source.type).data
      ++ ["    spec:".data, "      query: >-".data, ("        " ++ tm.source.query).data]
      ++ splitCh ("  operator: " ++ opStr tm.operator).data
      ++ splitCh ("  value: " ++ renderOptNum tm.value).data := by
  unfold thresholdTpl
  rw [splitCh_joinLines _ (by simp)]
  simp only [List.map_cons, List.map_nil, List.flatten_cons, List.flatten_nil]
  rw [splitCh_no_nl (show ('\n' : Char) ∉ "thresholdMetric:".data by decide),
    splitCh_no_nl (show ('\n' : Char) ∉ "  metricSource:".data by decide),
    splitCh_no_nl (show ('\n' : Char) ∉ "    spec:".data by decide),
    splitCh_no_nl (show ('\n' : Char) ∉ "      query: >-".data by decide),
    splitCh_no_nl (show ('\n' : Char) ∉ ("        " ++ tm.source.query).data by
      rw [data_append]
      intro hmem
      rcases List.mem_append.1 hmem with h | h
      · exact absurd h (by decide)
      · exact hq h)]
  simp [List.append_assoc]

theorem splitCh_ratioTpl (rm : RatioMetric) (hqt : '\n' ∉ rm.total.query.data) :
    splitCh (ratioTpl rm).data =
      ["ratioMetric:".data]
      ++ splitCh ("  " ++ ratioEntryTpl "good" rm.good).data
      ++ splitCh ("  " ++ ratioEntryTpl "bad" rm.bad).data
      ++ ["  total:".data, "    metricSource:".data]
      ++ splitCh ("      type: " ++ rm.total.type).data
      ++ ["      spec:".data, "        query: >-".data, ("          " ++ rm.total.query).data] := by
  unfold ratioTpl
  rw [splitCh_joinLines _ (by simp)]
  simp only [List.map_cons, List.map_nil, List.flatten_cons, List.flatten_nil]
  rw [splitCh_no_nl (show ('\n' : Char) ∉ "ratioMetric:".data by decide),
    splitCh_no_nl (show ('\n' : Char) ∉ "  total:".data by decide),
    splitCh_no_nl (show ('\n' : Char) ∉ "    metricSource:".data by decide),
    splitCh_no_nl (show ('\n' : Char) ∉ "      spec:".data by decide),
    splitCh_no_nl (show ('\n' : Char) ∉ "        query: >-".data by decide),
    splitCh_no_nl (show ('\n' : Char) ∉ ("          " ++ rm.total.query).data by
      rw [data_append]
      intro hmem
      rcases List.mem_append.1 hmem with h | h
      · exact absurd h (by decide)
      · exact hqt h)]
  simp [List.append_assoc]

theorem entry_seg_none (label : String) : "  " ++ ratioEntryTpl label none = "  " := by
  apply string_ext
  show "  ".data ++ ("" : String).data = "  ".data
  simp

theorem splitCh_entry_good (m : MetricSource) (hq : '\n' ∉ m.query.data) :
    splitCh ("  " ++ ratioEntryTpl "good" (some m)).data =
      ["  good:".data, "    metricSource:".data]
      ++ splitCh ("      type: " ++ m.type).data
      ++ ["      spec:".data, "        query: >-".data, ("          " ++ m.query).data] := by
  unfold ratioEntryTpl
  rw [prefix_joinLines,
    show ("  " ++ ("good" ++ ":") : String) = "  good:" by decide]
  rw [splitCh_joinLines _ (by simp)]
  simp only [List.map_cons, List.map_nil, List.flatten_cons, List.flatten_nil]
  rw [splitCh_no_nl (show ('\n' : Char) ∉ "  good:".data by decide),
    splitCh_no_nl (show ('\n' : Char) ∉ "    metricSource:".data by decide),
    splitCh_no_nl (show ('\n' : Char) ∉ "      spec:".data by decide),
    splitCh_no_nl (show ('\n' : Char) ∉ "        query: >-".data by decide),
    splitCh_no_nl (show ('\n' : Char) ∉ ("          " ++ m.query).data by
      rw [data_append]
      intro hmem
      rcases List.mem_append.1 hmem with h | h
      · exact absurd h (by decide)
      · exact hq h)]
  simp [List.append_assoc]

theorem splitCh_entry_bad (m : MetricSource) (hq : '\n' ∉ m.query.data) :
    splitCh ("  " ++ ratioEntryTpl "bad" (some m)).data =
      ["  bad:".data, "    metricSource:".data]
      ++ splitCh ("      type: " ++ m.type).data
      ++ ["      spec:".data, "        query: >-".data, ("          " ++ m.query).data] := by
  unfold ratioEntryTpl
  rw [prefix_joinLines,
    show ("  " ++ ("bad" ++ ":") : String) = "  bad:" by decide]
  rw [splitCh_joinLines _ (by simp)]
  simp only [List.map_cons, List.map_nil, List.flatten_cons, List.flatten_nil]
  rw [splitCh_no_nl (show ('\n' : Char) ∉ "  bad:".data by decide),
    splitCh_no_nl (show ('\n' : Char) ∉ "    metricSource:".data by decide),
    splitCh_no_nl (show ('\n' : Char) ∉ "      spec:".data by decide),
    splitCh_no_nl (show ('\n' : Char) ∉ "        query: >-".data by decide),
    splitCh_no_nl (show ('\n' : Char) ∉ ("          " ++ m.query).data by
      rw [data_append]
      intro hmem
      rcases List.mem_append.1 hmem with h | h
      · exact absurd h (by decide)
      · exact hq h)]
  simp [List.append_assoc]

/-- The first line of a present good entry, with its two-space separator,
regardless of the entry's query (which may be blank or multi-line). -/
theorem splitCh_entry_good_head (m : MetricSource) :
    ∃ w, splitCh ("  " ++ ratioEntryTpl "good" (some m)).data = "  good:".data :: w := by
  unfold ratioEntryTpl
  rw [prefix_joinLines,
    show ("  " ++ ("good" ++ ":") : String) = "  good:" by decide]
  exact splitCh_joinLines_head _ _ (by decide) (by simp)

/-- The first line of a present bad entry, with its two-space separator. -/
theorem splitCh_entry_bad_head (m : MetricSource) :
    ∃ w, splitCh ("  " ++ ratioEntryTpl "bad" (some m)).data = "  bad:".data :: w := by
  unfold ratioEntryTpl
  rw [prefix_joinLines,
    show ("  " ++ ("bad" ++ ":") : String) = "  bad:" by decide]
  exact splitCh_joinLines_head _ _ (by decide) (by simp)

/-- The raw ratio template, with both conditional entries and the total
query kept as opaque segment lists (no hypotheses needed). -/
theorem splitCh_ratioTpl_segs (rm : RatioMetric) :
    splitCh (ratioTpl rm).data =
      ["ratioMetric:".data]
      ++ splitCh ("  " ++ ratioEntryTpl "good" rm.good).data
      ++ splitCh ("  " ++ ratioEntryTpl "bad" rm.bad).data
      ++ ["  total:".data, "    metricSource:".data]
      ++ splitCh ("      type: " ++ rm.total.type).data
      ++ ["      spec:".data, "        query: >-".data]
      ++ splitCh ("          " ++ rm.total.query).data := by
  unfold ratioTpl
  rw [splitCh_joinLines _ (by simp)]
  simp only [List.map_cons, List.map_nil, List.flatten_cons, List.flatten_nil]
  rw [splitCh_no_nl (show ('\n' : Char) ∉ "ratioMetric:".data by decide),
    splitCh_no_nl (show ('\n' : Char) ∉ "  total:".data by decide),
    splitCh_no_nl (show ('\n' : Char) ∉ "    metricSource:".data by decide),
    splitCh_no_nl (show ('\n' : Char) ∉ "      spec:".data by decide),
    splitCh_no_nl (show ('\n' : Char) ∉ "        query: >-".data by decide)]
  simp [List.append_assoc]

/-- The pattern produced by `contains_pair_processed`, written as the
corresponding string concatenation. -/
theorem pat_eq (xs pre ys : String) :
    (⟨xs.data ++ '\n' :: (pre.data ++ ys.data)⟩ : String) = xs ++ "\n" ++ pre ++ ys := by
  apply string_ext
  show xs.data ++ '\n' :: (pre.data ++ ys.data) = (xs ++ "\n" ++ pre ++ ys).data
  simp [data_append, List.append_assoc, show ("\n" : String).data = ['\n'] from rfl]

/-- The renderer branch in which the metric block reaches the output:
kind SLI, or kind SLO taking the inline indicator branch. -/
def usesMetricBlock (s : SloState) : Prop :=
  s.kind = .SLI ∨ (s.kind = .SLO ∧ (s.indicatorMode = .inl ∨ refTruthy s = false))

/-- The per-line indent the kind branch applies to the metric block. -/
def kindIndent (s : SloState) : String :=
  match s.kind with
  | .SLI => "  "
  | .SLO => "    "

theorem contains_metric_doc (s : SloState) {pat : String} (hu : usesMetricBlock s)
    (h : strContains (indentLines (kindIndent s) (metricBlock s)) pat = true) :
    strContains (generateYaml s) pat = true := by
  rcases hu with hk | ⟨hk, hsec⟩
  · rw [show kindIndent s = "  " by simp [kindIndent, hk]] at h
    exact contains_metric_sli s hk h
  · rw [show kindIndent s = "    " by simp [kindIndent, hk]] at h
    exact contains_metric_slo s hk hsec h

/-- Witness for C8's universal parts at concrete inputs. -/
theorem C8_time_window_count_rule_witness :
    (jsFalsy (.num (mkRat 5 2)) || jsLe (.num (mkRat 5 2)) (.num 0)
        || !jsIsInt (.num (mkRat 5 2))) = !isPosIntJs (.num (mkRat 5 2))
    ∧ (validateState { cfgRefValid with timeWindowCount := .num (mkRat 5 2) }).lookup
        "timeWindowCount" = some "Must be a positive integer" := by
  refine ⟨C8_time_window_count_rule.1 (.num (mkRat 5 2)), ?_⟩
  rw [C8_time_window_count_rule.2.1 _ (by decide)]
  decide

/-! ## Claim C3 -/

/-- An SLI configuration with an inline threshold metric and a single-line
query. -/
def cfgInlineThreshold : SloState :=
  { cfgRefValid with
    kind := .SLI, indicatorType := .threshold,
    thresholdMetric := some { source := { type := "prometheus", query := "sum(rate(errors))" },
                              operator := .lte, value := some (.num (mkRat 1 2)) } }

/-- An SLI configuration whose threshold query spans three lines with a
blank middle line. -/
def cfgMultilineQuery : SloState :=
  { cfgRefValid with
    kind := .SLI, indicatorType := .threshold,
    thresholdMetric := some { source := { type := "prom", query := "a\n\nb" },
                              operator := .lte, value := some (.num 1) } }

/-- C3, amended: for every configuration whose applicable metric branch
reaches the output, each present metric source whose query is single-line
and not whitespace-only is emitted verbatim on the line after its
`query: >-` marker, at the fixed indentation determined by the kind branch
(the block's own 8- or 10-space indent plus the kind indent).  Queries
with embedded newlines or blank lines are not preserved (the amendment
forced by `C3_multiline_query_counterexample`). -/
theorem C3_query_block_scalar :
    (∀ (s : SloState) (tm : ThresholdMetric),
       usesMetricBlock s → s.indicatorType = .threshold → s.thresholdMetric = some tm →
       '\n' ∉ tm.source.query.data → isBlankL tm.source.query.data = false →
       strContains (generateYaml s)
         ("      query: >-" ++ "\n" ++ kindIndent s ++ ("        " ++ tm.source.query)) = true)
    ∧ (∀ (s : SloState) (rm : RatioMetric),
       usesMetricBlock s → s.indicatorType = .ratio → s.ratioMetric = some rm →
       '\n' ∉ rm.total.query.data → isBlankL rm.total.query.data = false →
       strContains (generateYaml s)
         ("        query: >-" ++ "\n" ++ kindIndent s ++ ("          " ++ rm.total.query)) = true)
    ∧ (∀ (s : SloState) (rm : RatioMetric) (g : MetricSource),
       usesMetricBlock s → s.indicatorType = .ratio → s.ratioMetric = some rm →
       rm.good = some g → '\n' ∉ g.query.data → isBlankL g.query.data = false →
       strContains (generateYaml s)
         ("        query: >-" ++ "\n" ++ kindIndent s ++ ("          " ++ g.query)) = true)
    ∧ (∀ (s : SloState) (rm : RatioMetric) (b : MetricSource),
       usesMetricBlock s → s.indicatorType = .ratio → s.ratioMetric = some rm →
       rm.bad = some b → '\n' ∉ b.query.data → isBlankL b.query.data = false →
       strContains (generateYaml s)
         ("        query: >-" ++ "\n" ++ kindIndent s ++ ("          " ++ b.query)) = true) := by
  refine ⟨?_, ?_, ?_, ?_⟩
  · intro s tm hu hit htm hq hbq
    have hraw : metricBlockRaw s = thresholdTpl tm := by
      simp [metricBlockRaw, hit, htm]
    have hsplit : splitCh (metricBlockRaw s).data =
        (["thresholdMetric:".data, "  metricSource:".data]
          ++ splitCh ("    type: " ++ tm.source.type).data ++ ["    spec:".data])
        ++ "      query: >-".data :: ("        " ++ tm.source.query).data
          :: (splitCh ("  operator: " ++ opStr tm.operator).data
              ++ splitCh ("  value: " ++ renderOptNum tm.value).data) := by
      rw [hraw, splitCh_thresholdTpl tm hq]
      simp [List.append_assoc]
    have hy : isBlankL ("        " ++ tm.source.query).data = false := by
      rw [data_append, isBlankL_append]
      simp [show isBlankL "        ".data = true from by decide, hbq]
    have h := contains_pair_processed (kindIndent s) (metricBlockRaw s) hsplit (by decide) hy
    rw [pat_eq] at h
    exact contains_metric_doc s hu h
  · intro s rm hu hit hrm hq hbq
    have hraw : metricBlockRaw s = ratioTpl rm := by
      simp [metricBlockRaw, hit, hrm]
    have hsplit : splitCh (metricBlockRaw s).data =
        (["ratioMetric:".data]
          ++ splitCh ("  " ++ ratioEntryTpl "good" rm.good).data
          ++ splitCh ("  " ++ ratioEntryTpl "bad" rm.bad).data
          ++ ["  total:".data, "    metricSource:".data]
          ++ splitCh ("      type: " ++ rm.total.type).data ++ ["      spec:".data])
        ++ "        query: >-".data :: ("          " ++ rm.total.query).data :: [] := by
      rw [hraw, splitCh_ratioTpl rm hq]
      simp [List.append_assoc]
    have hy : isBlankL ("          " ++ rm.total.query).data = false := by
      rw [data_append, isBlankL_append]
      simp [show isBlankL "          ".data = true from by decide, hbq]
    have h := contains_pair_processed (kindIndent s) (metricBlockRaw s) hsplit (by decide) hy
    rw [pat_eq] at h
    exact contains_metric_doc s hu h
  · intro s rm g hu hit hrm hg hq hbq
    have hraw : metricBlockRaw s = ratioTpl rm := by
      simp [metricBlockRaw, hit, hrm]
    have hsplit : splitCh (metricBlockRaw s).data =
        (["ratioMetric:".data, "  good:".data, "    metricSource:".data]
          ++ splitCh ("      type: " ++ g.type).data ++ ["      spec:".data])
        ++ "        query: >-".data :: ("          " ++ g.query).data
          :: (splitCh ("  " ++ ratioEntryTpl "bad" rm.bad).data
              ++ ["  total:".data, "    metricSource:".data]
              ++ splitCh ("      type: " ++ rm.total.type).data
              ++ ["      spec:".data, "        query: >-".data]
              ++ splitCh ("          " ++ rm.total.query).data) := by
      rw [hraw, splitCh_ratioTpl_segs rm, hg, splitCh_entry_good g hq]
      simp [List.append_assoc]
    have hy : isBlankL ("          " ++ g.query).data = false := by
      rw [data_append, isBlankL_append]
      simp [show isBlankL "          ".data = true from by decide, hbq]
    have h := contains_pair_processed (kindIndent s) (metricBlockRaw s) hsplit (by decide) hy
    rw [pat_eq] at h
    exact contains_metric_doc s hu h
  · intro s rm b hu hit hrm hb hq hbq
    have hraw : metricBlockRaw s = ratioTpl rm := by
      simp [metricBlockRaw, hit, hrm]
    have hsplit : splitCh (metricBlockRaw s).data =
        (["ratioMetric:".data]
          ++ splitCh ("  " ++ ratioEntryTpl "good" rm.good).data
          ++ ["  bad:".data, "    metricSource:".data]
          ++ splitCh ("      type: " ++ b.type).data ++ ["      spec:".data])
        ++ "        query: >-".data :: ("          " ++ b.query).data
          :: (["  total:".data, "    metricSource:".data]
              ++ splitCh ("      type: " ++ rm.total.type).data
              ++ ["      spec:".data, "        query: >-".data]
              ++ splitCh ("          " ++ rm.total.query).data) := by
      rw [hraw, splitCh_ratioTpl_segs rm, hb, splitCh_entry_bad b hq]
      simp [List.append_assoc]
    have hy : isBlankL ("          " ++ b.query).data = false := by
      rw [data_append, isBlankL_append]
      simp [show isBlankL "          ".data = true from by decide, hbq]
    have h := contains_pair_processed (kindIndent s) (metricBlockRaw s) hsplit (by decide) hy
    rw [pat_eq] at h
    exact contains_metric_doc s hu h

/-- Witness for C3 at the concrete inline-threshold configuration. -/
theorem C3_query_block_scalar_witness :
    strContains (generateYaml cfgInlineThreshold)
      ("      query: >-" ++ "\n" ++ kindIndent cfgInlineThreshold
        ++ ("        " ++ "sum(rate(errors))")) = true :=
  C3_query_block_scalar.1 cfgInlineThreshold
    { source := { type := "prometheus", query := "sum(rate(errors))" },
      operator := .lte, value := some (.num (mkRat 1 2)) }
    (Or.inl rfl) rfl rfl (by decide) (by decide)

/-- C3 counterexample: a threshold query containing a blank line is not
recoverable from the output — the query text occurs nowhere in the
rendered document (the blank line is stripped and the continuation line is
re-indented, leaving `a\n  b` instead). -/
theorem C3_multiline_query_counterexample :
    (∃ tm, cfgMultilineQuery.thresholdMetric = some tm ∧ tm.source.query = "a\n\nb")
    ∧ strContains (generateYaml cfgMultilineQuery) "a\n\nb" = false
    ∧ strContains (generateYaml cfgMultilineQuery) "a\n  b" = true :=
  ⟨⟨_, rfl, rfl⟩, by decide, by decide⟩

/-! ## Claim C4 -/

/-- The valid reference-mode configuration with the reference erased. -/
def cfgRefNoRef : SloState := { cfgRefValid with indicatorRef := none }

/-- C4, amended: for an SLO configuration the indicator section is the
flat `indicatorRef:` key when the mode is reference AND the reference is
present and nonempty; otherwise (inline mode, or reference mode with a
falsy reference — the amendment forced by `C4_blank_ref_counterexample`)
it is the `indicator:` block.  On the spec's concrete reference example
the output contains `indicatorRef: worker-latency-sli` and no
`indicator:` key. -/
theorem C4_indicator_section :
    (∀ (s : SloState) (r : String), s.kind = .SLO → s.indicatorMode = .reference →
       s.indicatorRef = some r → r ≠ "" →
       strContains (generateYaml s) ("indicatorRef: " ++ r) = true)
    ∧ (∀ s : SloState, s.kind = .SLO →
       (s.indicatorMode = .inl ∨ refTruthy s = false) →
       strContains (generateYaml s) "  indicator:\n" = true)
    ∧ strContains (generateYaml cfgRefValid) "indicatorRef: worker-latency-sli" = true
    ∧ strContains (generateYaml cfgRefValid) "indicator:" = false := by
  refine ⟨?_, ?_, by decide, by decide⟩
  · intro s r hk hm hr hne
    have hg : generateYaml s = sloDoc s := by simp [generateYaml, hk]
    have hsec : indicatorSection s = "  indicatorRef: " ++ r := by
      unfold indicatorSection
      rw [if_pos ⟨hm, by simp [refTruthy, hr, hne]⟩, hr]
      rfl
    rw [hg]
    unfold sloDoc
    rw [hsec, show ("  indicatorRef: " : String) = "  " ++ "indicatorRef: " from by decide,
      str_append_assoc "  " "indicatorRef: " r, ← str_append_assoc]
    exact strContains_suffix _ _
  · intro s hk hsec
    have hg : generateYaml s = sloDoc s := by simp [generateYaml, hk]
    have hs : indicatorSection s = "  indicator:\n" ++ indentLines "    " (metricBlock s) := by
      unfold indicatorSection
      rcases hsec with hm | hm <;> simp [hm]
    rw [hg]
    unfold sloDoc
    rw [hs]
    exact strContains_mid _ _ _

/-- Witness for C4's universal parts at concrete inputs. -/
theorem C4_indicator_section_witness :
    strContains (generateYaml cfgRefValid) ("indicatorRef: " ++ "worker-latency-sli") = true ∧
      strContains (generateYaml cfgRefNoRef) "  indicator:\n" = true :=
  ⟨C4_indicator_section.1 cfgRefValid "worker-latency-sli" rfl rfl rfl (by decide),
    C4_indicator_section.2.1 cfgRefNoRef rfl (Or.inr (by decide))⟩

/-- C4 counterexample: in reference mode with an absent reference the code
falls through to the inline branch, so the output contains an
`indicator:` block and no `indicatorRef:` key, refuting "when
indicatorMode=reference the section is the flat indicatorRef key". -/
theorem C4_blank_ref_counterexample :
    cfgRefNoRef.kind = .SLO ∧ cfgRefNoRef.indicatorMode = .reference ∧
      strContains (generateYaml cfgRefNoRef) "indicator:" = true ∧
      strContains (generateYaml cfgRefNoRef) "indicatorRef" = false :=
  ⟨rfl, rfl, by decide, by decide⟩

/-! ## Claim C9 -/

/-- C9: both functions are total Lean functions by construction (the
shallow embedding is structurally recursive throughout); in addition,
every rendered document begins with the `apiVersion: ` header in both kind
branches, and absence of the applicable metric object, or of the
indicator reference, yields the corresponding validation message rather
than any failure. -/
theorem C9_totality :
    (∀ s : SloState, strStartsWith (generateYaml s) "apiVersion: " = true)
    ∧ (∀ s : SloState, validateMetrics s = true → s.indicatorType = .threshold →
        s.thresholdMetric = none →
        ("thresholdQuery", "Query is required") ∈ validateState s
        ∧ ("thresholdValue", "Threshold value is required") ∈ validateState s)
    ∧ (∀ s : SloState, validateMetrics s = true → s.indicatorType = .ratio →
        s.ratioMetric = none →
        ("ratioTotal", "Total query is required") ∈ validateState s
        ∧ ("ratioGoodBad", "Either Good or Bad metric query is required") ∈ validateState s)
    ∧ (∀ s : SloState, s.kind = .SLO → s.indicatorMode = .reference →
        s.indicatorRef = none →
        ("indicatorRef", "SLI Reference name is required") ∈ validateState s) := by
  refine ⟨?_, ?_, ?_, ?_⟩
  · intro s
    cases hk : s.kind
    · have hg : generateYaml s = sloDoc s := by simp [generateYaml, hk]
      rw [hg]
      unfold sloDoc
      simp only [str_append_assoc]
      exact strStartsWith_append _ _
    · have hg : generateYaml s = sliDoc s := by simp [generateYaml, hk]
      rw [hg]
      unfold sliDoc
      simp only [str_append_assoc]
      exact strStartsWith_append _ _
  · intro s hv hit htm
    constructor <;>
      (unfold validateState
       refine List.mem_append.2 (Or.inr ?_)
       simp [metricErrs, hv, hit, thresholdErrs, thresholdQueryBlank,
         thresholdValueMissing, htm])
  · intro s hv hit hrm
    constructor <;>
      (unfold validateState
       refine List.mem_append.2 (Or.inr ?_)
       simp [metricErrs, hv, hit, ratioErrs, ratioTotalBlank, hasEntry, hrm])
  · intro s hk hm href
    unfold validateState
    refine List.mem_append.2 (Or.inl (List.mem_append.2 (Or.inr ?_)))
    simp [sloErrs, hk, refErrs, hm, optTrimTruthy, href]

/-- Witness for C9 at concrete inputs. -/
theorem C9_totality_witness :
    strStartsWith (generateYaml cfgRefValid) "apiVersion: " = true ∧
      ("indicatorRef", "SLI Reference name is required") ∈ validateState cfgRefNoRef :=
  ⟨C9_totality.1 cfgRefValid, C9_totality.2.2.2 cfgRefNoRef rfl rfl rfl⟩

/-! ## Claim C5 -/

theorem rbL_step_nb {l : List Char} {ls : List (List Char)}
    (h : isBlankL l = false) (hne : ls ≠ []) : rbL (l :: ls) = l :: rbL ls := by
  rw [rbL_cons _ hne]
  simp [h]

theorem rbL_step_b {l : List Char} {ls : List (List Char)}
    (h : isBlankL l = true) (hne : ls ≠ []) : rbL (l :: ls) = rbL ls := by
  rw [rbL_cons _ hne]
  simp [h]

/-- An SLI ratio configuration with only the bad entry set (the shape of
the spec's standalone-SLI example). -/
def cfgRatioBadOnly : SloState :=
  { cfgRefValid with
    kind := .SLI, indicatorType := .ratio,
    ratioMetric := some
      { good := none,
        bad := some { type := "prometheus", query := "sum(rate(errors_total[5m]))" },
        total := { type := "prometheus", query := "sum(rate(requests_total[5m]))" } } }

/-- C5: in the stripped metric block an absent good or bad entry
contributes zero lines (its blank separator line is removed before any
indentation is applied), the present sub-blocks appear in the order good,
bad, total with total always present, and in particular a bad-only
configuration yields exactly the `bad:` lines directly under
`ratioMetric:` followed by the `total:` lines — stated as line-by-line
equations for all four presence shapes (bad-only, both-present,
good-only, both-absent; for metric strings that are single-line, with the
non-final queries not whitespace-only), plus the spec's concrete bad-only
document checks. -/
theorem C5_ratio_optional_entries :
    (∀ (s : SloState) (rm : RatioMetric) (b : MetricSource),
       s.indicatorType = .ratio → s.ratioMetric = some rm →
       rm.good = none → rm.bad = some b →
       '\n' ∉ b.type.data → '\n' ∉ b.query.data → isBlankL b.query.data = false →
       '\n' ∉ rm.total.type.data → '\n' ∉ rm.total.query.data →
       metricBlock s = joinLines
         ["ratioMetric:", "  bad:", "    metricSource:", "      type: " ++ b.type,
          "      spec:", "        query: >-", "          " ++ b.query,
          "  total:", "    metricSource:", "      type: " ++ rm.total.type,
          "      spec:", "        query: >-", "          " ++ rm.total.query])
    ∧ (∀ (s : SloState) (rm : RatioMetric) (g b : MetricSource),
       s.indicatorType = .ratio → s.ratioMetric = some rm →
       rm.good = some g → rm.bad = some b →
       '\n' ∉ g.type.data → '\n' ∉ g.query.data → isBlankL g.query.data = false →
       '\n' ∉ b.type.data → '\n' ∉ b.query.data → isBlankL b.query.data = false →
       '\n' ∉ rm.total.type.data → '\n' ∉ rm.total.query.data →
       metricBlock s = joinLines
         ["ratioMetric:", "  good:", "    metricSource:", "      type: " ++ g.type,
          "      spec:", "        query: >-", "          " ++ g.query,
          "  bad:", "    metricSource:", "      type: " ++ b.type,
          "      spec:", "        query: >-", "          " ++ b.query,
          "  total:", "    metricSource:", "      type: " ++ rm.total.type,
          "      spec:", "        query: >-", "          " ++ rm.total.query])
    ∧ (∀ (s : SloState) (rm : RatioMetric) (g : MetricSource),
       s.indicatorType = .ratio → s.ratioMetric = some rm →
       rm.good = some g → rm.bad = none →
       '\n' ∉ g.type.data → '\n' ∉ g.query.data → isBlankL g.query.data = false →
       '\n' ∉ rm.total.type.data → '\n' ∉ rm.total.query.data →
       metricBlock s = joinLines
         ["ratioMetric:", "  good:", "    metricSource:", "      type: " ++ g.type,
          "      spec:", "        query: >-", "          " ++ g.query,
          "  total:", "    metricSource:", "      type: " ++ rm.total.type,
          "      spec:", "        query: >-", "          " ++ rm.total.query])
    ∧ (∀ (s : SloState) (rm : RatioMetric),
       s.indicatorType = .ratio → s.ratioMetric = some rm →
       rm.good = none → rm.bad = none →
       '\n' ∉ rm.total.type.data → '\n' ∉ rm.total.query.data →
       metricBlock s = joinLines
         ["ratioMetric:",
          "  total:", "    metricSource:", "      type: " ++ rm.total.type,
          "      spec:", "        query: >-", "          " ++ rm.total.query])
    ∧ strContains (generateYaml cfgRatioBadOnly) "ratioMetric:\n    bad:" = true
    ∧ strContains (generateYaml cfgRatioBadOnly) "    total:" = true
    ∧ strContains (generateYaml cfgRatioBadOnly) "good:" = false := by
  refine ⟨?_, ?_, ?_, ?_, by decide, by decide, by decide⟩
  · intro s rm b hit hrm hg hb hbt hbq hbqb htt htq
    have hraw : metricBlockRaw s = ratioTpl rm := by
      simp [metricBlockRaw, hit, hrm]
    have htypeb : isBlankL ("      type: " ++ b.type).data = false := by
      rw [data_append, isBlankL_append]
      simp [show isBlankL "      type: ".data = false from by decide]
    have htypet : isBlankL ("      type: " ++ rm.total.type).data = false := by
      rw [data_append, isBlankL_append]
      simp [show isBlankL "      type: ".data = false from by decide]
    have hqb : isBlankL ("          " ++ b.query).data = false := by
      rw [data_append, isBlankL_append]
      simp [show isBlankL "          ".data = true from by decide, hbqb]
    unfold metricBlock
    rw [hraw]
    apply string_ext
    show joinL (rbL (splitCh (ratioTpl rm).data)) =
      joinL ((["ratioMetric:", "  bad:", "    metricSource:", "      type: " ++ b.type,
        "      spec:", "        query: >-", "          " ++ b.query,
        "  total:", "    metricSource:", "      type: " ++ rm.total.type,
        "      spec:", "        query: >-", "          " ++ rm.total.query] : List String).map String.data)
    rw [splitCh_ratioTpl rm htq, hg, hb, entry_seg_none "good",
      splitCh_no_nl (show ('\n' : Char) ∉ ("  " : String).data by decide),
      splitCh_entry_bad b hbq,
      splitCh_no_nl (show ('\n' : Char) ∉ ("      type: " ++ b.type).data by
        rw [data_append]
        intro hmem
        rcases List.mem_append.1 hmem with h | h
        · exact absurd h (by decide)
        · exact hbt h),
      splitCh_no_nl (show ('\n' : Char) ∉ ("      type: " ++ rm.total.type).data by
        rw [data_append]
        intro hmem
        rcases List.mem_append.1 hmem with h | h
        · exact absurd h (by decide)
        · exact htt h)]
    simp only [List.cons_append, List.nil_append]
    rw [rbL_step_nb (by decide) (by simp),
      rbL_step_b (by decide) (by simp),
      rbL_step_nb (by decide) (by simp),
      rbL_step_nb (by decide) (by simp),
      rbL_step_nb htypeb (by simp),
      rbL_step_nb (by decide) (by simp),
      rbL_step_nb (by decide) (by simp),
      rbL_step_nb hqb (by simp),
      rbL_step_nb (by decide) (by simp),
      rbL_step_nb (by decide) (by simp),
      rbL_step_nb htypet (by simp),
      rbL_step_nb (by decide) (by simp),
      rbL_step_nb (by decide) (by simp)]
    rfl
  · intro s rm g b hit hrm hg hb hgt hgq hgqb hbt hbq hbqb htt htq
    have hraw : metricBlockRaw s = ratioTpl rm := by
      simp [metricBlockRaw, hit, hrm]
    have htypeg : isBlankL ("      type: " ++ g.type).data = false := by
      rw [data_append, isBlankL_append]
      simp [show isBlankL "      type: ".data = false from by decide]
    have htypeb : isBlankL ("      type: " ++ b.type).data = false := by
      rw [data_append, isBlankL_append]
      simp [show isBlankL "      type: ".data = false from by decide]
    have htypet : isBlankL ("      type: " ++ rm.total.type).data = false := by
      rw [data_append, isBlankL_append]
      simp [show isBlankL "      type: ".data = false from by decide]
    have hqg : isBlankL ("          " ++ g.query).data = false := by
      rw [data_append, isBlankL_append]
      simp [show isBlankL "          ".data = true from by decide, hgqb]
    have hqb : isBlankL ("          " ++ b.query).data = false := by
      rw [data_append, isBlankL_append]
      simp [show isBlankL "          ".data = true from by decide, hbqb]
    unfold metricBlock
    rw [hraw]
    apply string_ext
    show joinL (rbL (splitCh (ratioTpl rm).data)) =
      joinL ((["ratioMetric:", "  good:", "    metricSource:", "      type: " ++ g.type,
        "      spec:", "        query: >-", "          " ++ g.query,
        "  bad:", "    metricSource:", "      type: " ++ b.type,
        "      spec:", "        query: >-", "          " ++ b.query,
        "  total:", "    metricSource:", "      type: " ++ rm.total.type,
        "      spec:", "        query: >-", "          " ++ rm.total.query] : List String).map String.data)
    rw [splitCh_ratioTpl rm htq, hg, hb,
      splitCh_entry_good g hgq, splitCh_entry_bad b hbq,
      splitCh_no_nl (show ('\n' : Char) ∉ ("      type: " ++ g.type).data by
        rw [data_append]
        intro hmem
        rcases List.mem_append.1 hmem with h | h
        · exact absurd h (by decide)
        · exact hgt h),
      splitCh_no_nl (show ('\n' : Char) ∉ ("      type: " ++ b.type).data by
        rw [data_append]
        intro hmem
        rcases List.mem_append.1 hmem with h | h
        · exact absurd h (by decide)
        · exact hbt h),
      splitCh_no_nl (show ('\n' : Char) ∉ ("      type: " ++ rm.total.type).data by
        rw [data_append]
        intro hmem
        rcases List.mem_append.1 hmem with h | h
        · exact absurd h (by decide)
        · exact htt h)]
    simp only [List.cons_append, List.nil_append]
    rw [rbL_step_nb (by decide) (by simp),
      rbL_step_nb (by decide) (by simp),
      rbL_step_nb (by decide) (by simp),
      rbL_step_nb htypeg (by simp),
      rbL_step_nb (by decide) (by simp),
      rbL_step_nb (by decide) (by simp),
      rbL_step_nb hqg (by simp),
      rbL_step_nb (by decide) (by simp),
      rbL_step_nb (by decide) (by simp),
      rbL_step_nb htypeb (by simp),
      rbL_step_nb (by decide) (by simp),
      rbL_step_nb (by decide) (by simp),
      rbL_step_nb hqb (by simp),
      rbL_step_nb (by decide) (by simp),
      rbL_step_nb (by decide) (by simp),
      rbL_step_nb htypet (by simp),
      rbL_step_nb (by decide) (by simp),
      rbL_step_nb (by decide) (by simp)]
    rfl
  · intro s rm g hit hrm hg hb hgt hgq hgqb htt htq
    have hraw : metricBlockRaw s = ratioTpl rm := by
      simp [metricBlockRaw, hit, hrm]
    have htypeg : isBlankL ("      type: " ++ g.type).data = false := by
      rw [data_append, isBlankL_append]
      simp [show isBlankL "      type: ".data = false from by decide]
    have htypet : isBlankL ("      type: " ++ rm.total.type).data = false := by
      rw [data_append, isBlankL_append]
      simp [show isBlankL "      type: ".data = false from by decide]
    have hqg : isBlankL ("          " ++ g.query).data = false := by
      rw [data_append, isBlankL_append]
      simp [show isBlankL "          ".data = true from by decide, hgqb]
    unfold metricBlock
    rw [hraw]
    apply string_ext
    show joinL (rbL (splitCh (ratioTpl rm).data)) =
      joinL ((["ratioMetric:", "  good:", "    metricSource:", "      type: " ++ g.type,
        "      spec:", "        query: >-", "          " ++ g.query,
        "  total:", "    metricSource:", "      type: " ++ rm.total.type,
        "      spec:", "        query: >-", "          " ++ rm.total.query] : List String).map String.data)
    rw [splitCh_ratioTpl rm htq, hg, hb, splitCh_entry_good g hgq, entry_seg_none "bad",
      splitCh_no_nl (show ('\n' : Char) ∉ ("  " : String).data by decide),
      splitCh_no_nl (show ('\n' : Char) ∉ ("      type: " ++ g.type).data by
        rw [data_append]
        intro hmem
        rcases List.mem_append.1 hmem with h | h
        · exact absurd h (by decide)
        · exact hgt h),
      splitCh_no_nl (show ('\n' : Char) ∉ ("      type: " ++ rm.total.type).data by
        rw [data_append]
        intro hmem
        rcases List.mem_append.1 hmem with h | h
        · exact absurd h (by decide)
        · exact htt h)]
    simp only [List.cons_append, List.nil_append]
    rw [rbL_step_nb (by decide) (by simp),
      rbL_step_nb (by decide) (by simp),
      rbL_step_nb (by decide) (by simp),
      rbL_step_nb htypeg (by simp),
      rbL_step_nb (by decide) (by simp),
      rbL_step_nb (by decide) (by simp),
      rbL_step_nb hqg (by simp),
      rbL_step_b (by decide) (by simp),
      rbL_step_nb (by decide) (by simp),
      rbL_step_nb (by decide) (by simp),
      rbL_step_nb htypet (by simp),
      rbL_step_nb (by decide) (by simp),
      rbL_step_nb (by decide) (by simp)]
    rfl
  · intro s rm hit hrm hg hb htt htq
    have hraw : metricBlockRaw s = ratioTpl rm := by
      simp [metricBlockRaw, hit, hrm]
    have htypet : isBlankL ("      type: " ++ rm.total.type).data = false := by
      rw [data_append, isBlankL_append]
      simp [show isBlankL "      type: ".data = false from by decide]
    unfold metricBlock
    rw [hraw]
    apply string_ext
    show joinL (rbL (splitCh (ratioTpl rm).data)) =
      joinL ((["ratioMetric:",
        "  total:", "    metricSource:", "      type: " ++ rm.total.type,
        "      spec:", "        query: >-", "          " ++ rm.total.query] : List String).map String.data)
    rw [splitCh_ratioTpl rm htq, hg, hb, entry_seg_none "good", entry_seg_none "bad",
      splitCh_no_nl (show ('\n' : Char) ∉ ("  " : String).data by decide),
      splitCh_no_nl (show ('\n' : Char) ∉ ("      type: " ++ rm.total.type).data by
        rw [data_append]
        intro hmem
        rcases List.mem_append.1 hmem with h | h
        · exact absurd h (by decide)
        · exact htt h)]
    simp only [List.cons_append, List.nil_append]
    rw [rbL_step_nb (by decide) (by simp),
      rbL_step_b (by decide) (by simp),
      rbL_step_b (by decide) (by simp),
      rbL_step_nb (by decide) (by simp),
      rbL_step_nb (by decide) (by simp),
      rbL_step_nb htypet (by simp),
      rbL_step_nb (by decide) (by simp),
      rbL_step_nb (by decide) (by simp)]
    rfl

/-- An SLI ratio configuration with only the good entry set (the shape of
the repository's availability template). -/
def cfgRatioGoodOnly : SloState :=
  { cfgRefValid with
    kind := .SLI, indicatorType := .ratio,
    ratioMetric := some
      { good := some { type := "prometheus", query := "sum(rate(http_requests_ok[5m]))" },
        bad := none,
        total := { type := "prometheus", query := "sum(rate(http_requests_total[5m]))" } } }

/-- Witness for C5's bad-only and good-only equations at concrete
configurations. -/
theorem C5_ratio_optional_entries_witness :
    metricBlock cfgRatioBadOnly = joinLines
      ["ratioMetric:", "  bad:", "    metricSource:", "      type: " ++ "prometheus",
       "      spec:", "        query: >-", "          " ++ "sum(rate(errors_total[5m]))",
       "  total:", "    metricSource:", "      type: " ++ "prometheus",
       "      spec:", "        query: >-", "          " ++ "sum(rate(requests_total[5m]))"]
    ∧ metricBlock cfgRatioGoodOnly = joinLines
      ["ratioMetric:", "  good:", "    metricSource:", "      type: " ++ "prometheus",
       "      spec:", "        query: >-", "          " ++ "sum(rate(http_requests_ok[5m]))",
       "  total:", "    metricSource:", "      type: " ++ "prometheus",
       "      spec:", "        query: >-", "          " ++ "sum(rate(http_requests_total[5m]))"] :=
  ⟨C5_ratio_optional_entries.1 cfgRatioBadOnly
    { good := none,
      bad := some { type := "prometheus", query := "sum(rate(errors_total[5m]))" },
      total := { type := "prometheus", query := "sum(rate(requests_total[5m]))" } }
    { type := "prometheus", query := "sum(rate(errors_total[5m]))" }
    rfl rfl rfl rfl (by decide) (by decide) (by decide) (by decide) (by decide),
   C5_ratio_optional_entries.2.2.1 cfgRatioGoodOnly
    { good := some { type := "prometheus", query := "sum(rate(http_requests_ok[5m]))" },
      bad := none,
      total := { type := "prometheus", query := "sum(rate(http_requests_total[5m]))" } }
    { type := "prometheus", query := "sum(rate(http_requests_ok[5m]))" }
    rfl rfl rfl rfl (by decide) (by decide) (by decide) (by decide) (by decide)⟩

/-! ## Claim C10 -/

/-- An SLI ratio configuration whose good entry exists as an object but
carries a whitespace-only query, with no bad entry. -/
def cfgBlankGood : SloState :=
  { cfgRefValid with
    kind := .SLI, indicatorType := .ratio,
    ratioMetric := some
      { good := some { type := "p", query := " " },
        bad := none,
        total := { type := "p", query := "tq" } } }

/-- C10: the validator and the renderer decide presence of the optional
ratio entries differently — the validator by the trimmed query text, the
renderer by object existence.  For a ratio configuration whose good entry
exists with a blank query while bad is absent or blank, the validator
reports the combined `ratioGoodBad` message, while the renderer still
emits the `good:` sub-block. -/
theorem C10_presence_discrepancy :
    (∀ (s : SloState) (rm : RatioMetric) (g : MetricSource),
       validateMetrics s = true → s.indicatorType = .ratio → s.ratioMetric = some rm →
       rm.good = some g → jsTrim g.query = "" →
       (∀ b, rm.bad = some b → jsTrim b.query = "") →
       ("ratioGoodBad", "Either Good or Bad metric query is required") ∈ validateState s)
    ∧ (∀ (s : SloState) (rm : RatioMetric) (g : MetricSource),
       usesMetricBlock s → s.indicatorType = .ratio → s.ratioMetric = some rm →
       rm.good = some g →
       strContains (generateYaml s) "  good:" = true) := by
  constructor
  · intro s rm g hv hit hrm hg hgq hbq
    have hga : hasEntry s.ratioMetric RatioMetric.good = false := by
      rw [hrm, hasEntry_some, hg]
      simp [specQueryOk, hgq]
    have hba : hasEntry s.ratioMetric RatioMetric.bad = false := by
      rw [hrm, hasEntry_some]
      cases hbb : rm.bad with
      | none => simp [specQueryOk]
      | some b => simp [specQueryOk, hbq b hbb]
    unfold validateState
    refine List.mem_append.2 (Or.inr ?_)
    simp [metricErrs, hv, hit, ratioErrs, hga, hba]
  · intro s rm g hu hit hrm hg
    have hraw : metricBlockRaw s = ratioTpl rm := by
      simp [metricBlockRaw, hit, hrm]
    obtain ⟨w, hw⟩ := splitCh_entry_good_head g
    have hsplit : splitCh (metricBlockRaw s).data =
        ["ratioMetric:".data]
        ++ "  good:".data
          :: (w ++ (splitCh ("  " ++ ratioEntryTpl "bad" rm.bad).data
            ++ ["  total:".data, "    metricSource:".data]
            ++ splitCh ("      type: " ++ rm.total.type).data
            ++ ["      spec:".data, "        query: >-".data]
            ++ splitCh ("          " ++ rm.total.query).data)) := by
      rw [hraw, splitCh_ratioTpl_segs rm, hg, hw]
      simp [List.append_assoc]
    have h := contains_line_processed (kindIndent s) (metricBlockRaw s) hsplit (by decide)
    rw [show (⟨"  good:".data⟩ : String) = "  good:" from rfl] at h
    exact contains_metric_doc s hu h

/-- Witness for C10 at the concrete blank-good configuration: the
validator flags `ratioGoodBad` and the rendered document still carries the
`good:` sub-block. -/
theorem C10_presence_discrepancy_witness :
    ("ratioGoodBad", "Either Good or Bad metric query is required") ∈ validateState cfgBlankGood
    ∧ strContains (generateYaml cfgBlankGood) "  good:" = true :=
  ⟨C10_presence_discrepancy.1 cfgBlankGood
      { good := some { type := "p", query := " " }, bad := none,
        total := { type := "p", query := "tq" } }
      { type := "p", query := " " }
      (by decide) rfl rfl rfl (by decide) (fun b hb => Option.noConfusion hb),
    C10_presence_discrepancy.2 cfgBlankGood
      { good := some { type := "p", query := " " }, bad := none,
        total := { type := "p", query := "tq" } }
      { type := "p", query := " " }
      (Or.inl rfl) rfl rfl rfl⟩

end OpenSLO
